import Mathlib

/-!
XLEngine settings: a verification development for `XLEngine/settings.cpp`.

The definitions below are a shallow embedding of the functions of namespace `Settings`
in `XLEngine/settings.cpp`.

Conventions of the embedding.

* The signed 32-bit quantities of the source (`int`, `s32`: scales, widths, heights,
  counts, indices) are integers (`Int`).  The products `320*scale`, `240*scale` and
  `200*scale` of `chooseDefaultResolution` and `read` are reduced to 32 bits by `toS32`
  (two's complement wrap-around), as is a `long` stored in an `s32`.  A decrement
  `scale--` runs only above the floor of its loop (3 or 1) and cannot overflow; the
  comparisons `320*scale <= monitorWidth` of `chooseDefaultResolution` have `scale <= 5`.
* `u32 flags` is a natural number below `2 ^ 32`; the bitwise operators are those of `Nat`.
* A C string is the list of the characters before its terminating NUL.
* The header `settings.h` (the flag constants `XL_FLAG_*`, `MAX_MAPPING_COUNT`, the
  capacity of the array `GameInfo::actionMapping`, here `MAX_ACTION_COUNT`) is not part
  of the sources; its constants are the fields of `Header`, a parameter of the development.
* Fixed-capacity arrays are lists whose length is the capacity.  The functions
  `assignKeyMappings`, `writeKeys`, `appendAction`, `overrideAction` and `readCallback`
  give the result of the source when every access is inside its array; an access outside
  leaves the list as it is.  Where the source leaves an array is said by
  `assignKeyMappingsChecked`, `writeKeysChecked`, `overrideActionChecked` (result `none`)
  and by `readCallbackInBounds` (result `false`), which follow the same code with the
  bounds of the arrays.  Statements about stores are made within these bounds.
* A slot `keys[m]` of an `ActionMapping` has 256 bytes and holds one C string of at most
  255 characters; the buffer `str` of `write` has 512 bytes.  The other character buffers
  (names, paths, `patchDataLoc`) have sizes declared in `settings.h` and are taken to be
  large enough for the strings copied into them.
-/

set_option maxRecDepth 100000

namespace Settings

/-- Constants declared by the header `settings.h`, a parameter of the development. -/
structure Header where
  XL_FLAG_FULLSCREEN : Nat
  XL_FLAG_IMMEDIATE_EXIT : Nat
  XL_FLAG_SHOW_ALL_GAMES : Nat
  XL_FLAG_UI_GLOW : Nat
  XL_FLAG_COLOR_CORRECT : Nat
  XL_FLAG_VSYNC : Nat
  XL_FLAG_REDUCE_CPU : Nat
  MAX_MAPPING_COUNT : Nat
  MAX_ACTION_COUNT : Nat
deriving DecidableEq, Repr

/-- The enumeration `GraphicsDeviceID`, restricted to the members named in `settings.cpp`. -/
inductive GraphicsDeviceID where
  | GDEV_INVALID
  | GDEV_OPENGL_1_3
  | GDEV_OPENGL_2_0
deriving DecidableEq, Repr

/-- The MIDI format enumeration, members as named in `settings.cpp`. -/
inductive MidiFormat where
  | MFMT_GUS_PATCH
  | MFMT_SOUND_FONT
deriving DecidableEq, Repr

/-- An `f32` value, kept symbolically: the literal `1.0f` of the default initialiser, or
the result of `(f32)strtod(value, &endPtr) * 0.01f` for the text `value`. -/
inductive F32 where
  | one
  | percent (value : List Char)
deriving DecidableEq, Repr

/-- The struct `XLSettings`, fields in the order of the initialiser of `s_settings`. -/
structure XLSettings where
  flags : Nat
  launchGameID : Int
  frameLimit : Int
  windowScale : Int
  gameScale : Int
  windowWidth : Int
  windowHeight : Int
  gameWidth : Int
  gameHeight : Int
  colorCorrect : List F32
  midiformat : MidiFormat
  patchDataLoc : List Char
  musicVolume : Nat
  soundVolume : Nat
deriving DecidableEq, Repr

/-- The `s32` value of an integer result (two's complement, 32 bits): what a product
computed in `int` is on the 32-bit targets of the source, and what the conversion of a
`long` to `s32` stores. -/
def toS32 (x : Int) : Int :=
  (x + 2147483648) % 4294967296 - 2147483648

/-- The test `(s_settings.flags & XL_FLAG_FULLSCREEN) != 0`. -/
def fullscreenSet (h : Header) (s : XLSettings) : Bool :=
  (s.flags &&& h.XL_FLAG_FULLSCREEN) != 0

/-- The loop `for (; scale>=0; scale--) if (320*scale <= monitorWidth &&
base*scale <= monitorHeight) { ... = scale; break; }` of `chooseDefaultResolution`,
entered with `scale = n`; `base` is 200 in the fullscreen branch and 240 in the windowed
branch.  The result is the scale at which the loop breaks, `none` when it runs past 0. -/
def scaleSearch (base monitorWidth monitorHeight : Int) : Nat → Option Int
  | 0 => if 320 * (0 : Int) ≤ monitorWidth ∧ base * (0 : Int) ≤ monitorHeight then some 0 else none
  | n + 1 =>
    if 320 * ((n : Int) + 1) ≤ monitorWidth ∧ base * ((n : Int) + 1) ≤ monitorHeight then
      some ((n : Int) + 1)
    else scaleSearch base monitorWidth monitorHeight n

/-- Embedding of `chooseDefaultResolution(monitorWidth, monitorHeight)`. -/
def chooseDefaultResolution (h : Header) (monitorWidth monitorHeight : Int)
    (s : XLSettings) : XLSettings :=
  let s1 : XLSettings :=
    if fullscreenSet h s then
      let s0 := { s with windowWidth := monitorWidth, windowHeight := monitorHeight }
      match scaleSearch 200 monitorWidth monitorHeight 5 with
      | some scale => { s0 with gameScale := scale }
      | none => s0
    else
      let s0 : XLSettings :=
        match scaleSearch 240 monitorWidth monitorHeight 5 with
        | some scale => { s with windowScale := scale }
        | none => s
      { s0 with
        gameScale := s0.windowScale
        windowWidth := toS32 (320 * s0.windowScale)
        windowHeight := toS32 (240 * s0.windowScale) }
  { s1 with gameWidth := toS32 (320 * s1.gameScale), gameHeight := toS32 (200 * s1.gameScale) }

/-- The first fixup loop of `read`:
`while (windowScale > 3 && (windowWidth > monitorWidth || windowHeight > monitorHeight))`.
The state is the settings together with `writeRequired`.  The first argument bounds the
number of iterations; `reconcileOnLoad` passes `windowScale - 3`, which the loop cannot
exceed (`windowFixup_spec`: on return the loop condition is false). -/
def windowFixup (monitorWidth monitorHeight : Int) :
    Nat → XLSettings × Bool → XLSettings × Bool
  | 0, r => r
  | fuel + 1, (s, writeRequired) =>
    if s.windowScale > 3 ∧ (s.windowWidth > monitorWidth ∨ s.windowHeight > monitorHeight) then
      windowFixup monitorWidth monitorHeight fuel
        ({ s with
            windowScale := s.windowScale - 1
            windowWidth := toS32 (320 * (s.windowScale - 1))
            windowHeight := toS32 (240 * (s.windowScale - 1)) }, true)
    else (s, writeRequired)

/-- The second fixup loop of `read`:
`while (gameScale > 1 && (gameWidth > windowWidth || gameHeight > windowHeight))`.
The first argument bounds the number of iterations; `reconcileOnLoad` passes
`gameScale - 1`, which the loop cannot exceed (`gameFixup_spec`: on return the loop
condition is false). -/
def gameFixup : Nat → XLSettings × Bool → XLSettings × Bool
  | 0, r => r
  | fuel + 1, (s, writeRequired) =>
    if s.gameScale > 1 ∧ (s.gameWidth > s.windowWidth ∨ s.gameHeight > s.windowHeight) then
      gameFixup fuel
        ({ s with
            gameScale := s.gameScale - 1
            gameWidth := toS32 (320 * (s.gameScale - 1))
            gameHeight := toS32 (200 * (s.gameScale - 1)) }, true)
    else (s, writeRequired)

/-- The fullscreen / minimum-window-size step between the two loops of `read`. -/
def windowClamp (h : Header) (monitorWidth monitorHeight : Int) :
    XLSettings × Bool → XLSettings × Bool
  | (s, writeRequired) =>
    if fullscreenSet h s then
      ({ s with windowWidth := monitorWidth, windowHeight := monitorHeight }, writeRequired)
    else if s.windowScale < 3 then
      ({ s with windowScale := 3, windowWidth := 320 * 3, windowHeight := 240 * 3 }, true)
    else (s, writeRequired)

/-- The reconcile-on-load step of `read`: the body of
`if (iniReader::readIni("xlsettings.ini", readCallback)) { ... }`, from the stored scales
to the repaired settings and the value of `writeRequired`. -/
def reconcileOnLoad (h : Header) (monitorWidth monitorHeight : Int)
    (s : XLSettings) : XLSettings × Bool :=
  let s1 : XLSettings :=
    { s with
      windowWidth := toS32 (320 * s.windowScale)
      windowHeight := toS32 (240 * s.windowScale)
      gameWidth := toS32 (320 * s.gameScale)
      gameHeight := toS32 (200 * s.gameScale) }
  let r2 := windowFixup monitorWidth monitorHeight (s1.windowScale - 3).toNat (s1, false)
  let r3 := windowClamp h monitorWidth monitorHeight r2
  gameFixup (r3.1.gameScale - 1).toNat r3

/-- The struct `ActionMapping`: the action name, the slots `keys[m]` (one C string per
slot, `MAX_MAPPING_COUNT` slots) and `mappingCount`.  The count starts at 0 and is only
incremented, so it is a natural number. -/
structure ActionMapping where
  action : List Char
  keys : List (List Char)
  mappingCount : Nat
deriving DecidableEq, Repr

/-- The struct `GameInfo`, with the members used by `settings.cpp`. -/
structure GameInfo where
  name : List Char
  lib : List Char
  iconFile : List Char
  path : List Char
  iconID : Int
  actionCount : Nat
  actionMapping : List ActionMapping
deriving DecidableEq, Repr

/-- The file-scope variables of namespace `Settings` that `readCallback` reads or writes. -/
structure State where
  s_settings : XLSettings
  s_gameCount : Int
  s_gameID : Int
  s_keyMapping : Int
  s_setDefaultMapping : Bool
  s_games : List GameInfo
  s_graphicsDeviceID : GraphicsDeviceID
deriving DecidableEq, Repr

/-- The NUL character that terminates a C string. -/
def NUL : Char := Char.ofNat 0

/-- The library function `strcasecmp` (`stricmp` on Windows) on two C strings: the
difference of the first pair of characters that differ after lower-casing, 0 when there
is none. -/
def strcasecmp : List Char → List Char → Int
  | [], [] => 0
  | [], b :: _ => 0 - (b.toLower.toNat : Int)
  | a :: _, [] => (a.toLower.toNat : Int)
  | a :: as, b :: bs =>
    if a.toLower = b.toLower then strcasecmp as bs
    else (a.toLower.toNat : Int) - (b.toLower.toNat : Int)

/-- Embedding of `readBool`. -/
def readBool (value : List Char) : Bool :=
  if strcasecmp value "false".toList = 0 ∨ strcasecmp value "0".toList = 0 then false
  else true

/-- The `while` loop of `assignKeyMappings`, from the position `keys` of the input on.
The state is the slot array `action->keys`, `action->mappingCount`, and the characters
`keyStr[0 .. index)` stored so far in the current slot; `keyStr[index] = 0` makes them
the C string of slot `mappingCount`.  `*(keys+1)` is the next character of the input,
the terminating NUL at its end.  This is the loop for stores inside `action->keys`;
`assignLoopChecked` says when they are (`assignLoopChecked_eq`). -/
def assignLoop : List Char → List (List Char) × Nat × List Char →
    List (List Char) × Nat × List Char
  | [], st => st
  | c :: rest, (keys, mappingCount, keyStr) =>
    if c = '\r' ∨ c = '\n' ∨ c = NUL then (keys, mappingCount, keyStr)
    else if c = ',' ∧ rest.headD NUL ≠ ',' then
      assignLoop rest (keys.set mappingCount keyStr, mappingCount + 1, [])
    else
      assignLoop rest (keys, mappingCount, keyStr ++ [c])

/-- Embedding of `assignKeyMappings(action, value)`, for stores inside `action->keys`:
the result of the source whenever `assignKeyMappingsChecked` is not `none`
(`assignKeyMappingsChecked_eq_some`). -/
def assignKeyMappings (action : ActionMapping) (value : List Char) : ActionMapping :=
  match assignLoop value (action.keys, 0, []) with
  | (keys, mappingCount, keyStr) =>
    { action with keys := keys.set mappingCount keyStr, mappingCount := mappingCount + 1 }

/-- The inner loop of `write` that builds `str` for one action:
`for (m = ...; m < mappingCount; m++) { strcat(str, keys[m]); if (m < mappingCount-1)
strcat(str, ","); }`.  The first argument is the number of iterations left.  This is the
loop for a text that fits `char str[512]`; `writeKeysLoopChecked` says when it does. -/
def writeKeysLoop (action : ActionMapping) : Nat → Nat → List Char → List Char
  | 0, _, str => str
  | n + 1, m, str =>
    let str1 := str ++ action.keys.getD m []
    let str2 := if m + 1 < action.mappingCount then str1 ++ [','] else str1
    writeKeysLoop action n (m + 1) str2

/-- The value that `write` emits for one action: `str[0] = 0` followed by the loop over
`m = 0 .. mappingCount - 1`, for a text that fits `str`: the result of the source whenever
`writeKeysChecked` is not `none` (`writeKeysChecked_eq_some`). -/
def writeKeys (action : ActionMapping) : List Char :=
  writeKeysLoop action action.mappingCount 0 []

/-- The `while` loop of `assignKeyMappings` with the bounds of the array
`char keys[MAX_MAPPING_COUNT][256]`.  Every iteration stores one byte, `keyStr[index]`, in
slot `mappingCount`: the result is `none` as soon as that store has `mappingCount` outside
the slots or `index` outside the 256 bytes of the slot, where the source writes out of
bounds; otherwise it is the state computed by `assignLoop`. -/
def assignLoopChecked : List Char → List (List Char) × Nat × List Char →
    Option (List (List Char) × Nat × List Char)
  | [], st => some st
  | c :: rest, (keys, mappingCount, keyStr) =>
    if c = '\r' ∨ c = '\n' ∨ c = NUL then some (keys, mappingCount, keyStr)
    else if mappingCount < keys.length ∧ keyStr.length < 256 then
      if c = ',' ∧ rest.headD NUL ≠ ',' then
        assignLoopChecked rest (keys.set mappingCount keyStr, mappingCount + 1, [])
      else
        assignLoopChecked rest (keys, mappingCount, keyStr ++ [c])
    else none

/-- Embedding of `assignKeyMappings(action, value)` with the bounds of `action->keys`:
`none` when the loop or the final store `keyStr[index] = 0` writes outside the array,
otherwise the action computed by `assignKeyMappings`. -/
def assignKeyMappingsChecked (action : ActionMapping) (value : List Char) :
    Option ActionMapping :=
  match assignLoopChecked value (action.keys, 0, []) with
  | none => none
  | some (keys, mappingCount, keyStr) =>
    if mappingCount < keys.length ∧ keyStr.length < 256 then
      some { action with keys := keys.set mappingCount keyStr, mappingCount := mappingCount + 1 }
    else none

/-- The inner loop of `write` with the bounds of its arrays: `strcat` appends to
`char str[512]`, so the text and its terminating NUL must fit 512 bytes, and `keys[m]` must
be a slot of the action; `none` when one of the two fails, otherwise the text computed by
`writeKeysLoop`. -/
def writeKeysLoopChecked (action : ActionMapping) : Nat → Nat → List Char → Option (List Char)
  | 0, _, str => some str
  | n + 1, m, str =>
    match action.keys[m]? with
    | none => none
    | some key =>
      if (str ++ key).length < 512 then
        if m + 1 < action.mappingCount then
          if (str ++ key ++ [',']).length < 512 then
            writeKeysLoopChecked action n (m + 1) (str ++ key ++ [','])
          else none
        else writeKeysLoopChecked action n (m + 1) (str ++ key)
      else none

/-- The value that `write` emits for one action, with the bounds of `str` and of
`action->keys`: `none` when building it writes past `str[511]` or reads past the slots. -/
def writeKeysChecked (action : ActionMapping) : Option (List Char) :=
  writeKeysLoopChecked action action.mappingCount 0 []

/-- The token sequence of a key-list string, as a function of the text alone: the scan of
`assignKeyMappings` without the slot array. -/
def keyTokens : List Char → List (List Char)
  | [] => [[]]
  | c :: rest =>
    if c = '\r' ∨ c = '\n' ∨ c = NUL then [[]]
    else if c = ',' ∧ rest.headD NUL ≠ ',' then [] :: keyTokens rest
    else
      match keyTokens rest with
      | t :: ts => (c :: t) :: ts
      | [] => [[c]]

/-- The scanned part of an input of `assignKeyMappings`: the characters before the first
carriage return, line feed or NUL. -/
def scannedPart (value : List Char) : List Char :=
  value.takeWhile (fun c => !(c == '\r' || c == '\n' || c == NUL))

/-- Spec wording of the token count: the number of commas of a text that are not
immediately followed by another comma. -/
def separatorCount : List Char → Nat
  | [] => 0
  | c :: rest =>
    (if c = ',' ∧ rest.head? ≠ some ',' then 1 else 0) + separatorCount rest

/-- The consecutive stores `keys[n] = t0`, `keys[n+1] = t1`, ... of a token sequence into
the slot array. -/
def storeTokens : List (List Char) → Nat → List (List Char) → List (List Char)
  | keys, _, [] => keys
  | keys, n, t :: ts => storeTokens (keys.set n t) (n + 1) ts

/-- The characters `keyStr[0 .. index)` already stored in the current slot, put in front of
the first token of the rest of the scan. -/
def prependFirst (keyStr : List Char) : List (List Char) → List (List Char)
  | [] => [keyStr]
  | t :: ts => (keyStr ++ t) :: ts

/-- Tokens joined by a single comma, no trailing separator: the text that the loop of
`write` builds (`writeKeys_eq_joinComma`). -/
def joinComma : List (List Char) → List Char
  | [] => []
  | [t] => t
  | t :: t2 :: ts => t ++ ',' :: joinComma (t2 :: ts)

/-- A character that is neither a comma nor one of the characters that end the scan of
`assignKeyMappings` (carriage return, line feed, NUL). -/
def isKeyChar (c : Char) : Bool :=
  !(c == ',' || c == '\r' || c == '\n' || c == NUL)

/-- The library predicate `isspace` in the C locale. -/
def isspace (c : Char) : Bool :=
  c == ' ' || (9 ≤ c.toNat && c.toNat ≤ 13)

/-- The digit scan of `strtol` in base 10: the value of the leading decimal digits. -/
def strtolDigits : List Char → Nat → Nat
  | [], acc => acc
  | c :: rest, acc =>
    if c.isDigit then strtolDigits rest (10 * acc + (c.toNat - 48)) else acc

/-- The largest value of `long`, taken 64 bits wide. -/
def LONG_MAX : Int := 9223372036854775807

/-- The smallest value of `long`, taken 64 bits wide. -/
def LONG_MIN : Int := -9223372036854775808

/-- The library call `strtol(value, &endPtr, 10)`: leading white space, an optional sign,
decimal digits; 0 when there is no digit; saturating at the bounds of `long`. -/
def strtol (value : List Char) : Int :=
  let v := value.dropWhile isspace
  let n : Int :=
    match v with
    | '-' :: rest => - (strtolDigits rest 0 : Int)
    | '+' :: rest => (strtolDigits rest 0 : Int)
    | _ => (strtolDigits v 0 : Int)
  max LONG_MIN (min LONG_MAX n)

/-- The cast `(u32)` of a `long`. -/
def toU32 (x : Int) : Nat :=
  (x % 4294967296).toNat

/-- The statement pair `flags |= bit` / `flags &= ~bit` chosen by `readBool(value)`, on a
32-bit `flags`. -/
def setFlag (flags bit : Nat) (b : Bool) : Nat :=
  if b then (flags ||| bit) % 4294967296 else flags &&& (4294967295 ^^^ (bit % 4294967296))

/-- A store through `&array[i]`: the element at index `i` is replaced by its image; an
index outside the array leaves the list unchanged. -/
def modifyAt {α : Type} (f : α → α) : List α → Nat → List α
  | [], _ => []
  | x :: xs, 0 => f x :: xs
  | x :: xs, i + 1 => x :: modifyAt f xs i

/-- The search loop of the override branch of `readCallback`:
`for (a = ...; a < actionCount; a++) if (strcasecmp(actionMapping[a].action, key) == 0)
{ actionID = a; break; }`, over the actions from index `a` on; -1 when none matches. -/
def findAction (key : List Char) : List ActionMapping → Nat → Int
  | [], _ => -1
  | m :: rest, a =>
    if strcasecmp m.action key = 0 then (a : Int) else findAction key rest (a + 1)

/-- The `keys` array after `memset(action->keys, 0, MAX_MAPPING_COUNT*256)`: every slot
holds the empty string. -/
def zeroKeys (h : Header) : List (List Char) :=
  List.replicate h.MAX_MAPPING_COUNT []

/-- The text that `sprintf(buffer, "game%d<field>", g)` produces. -/
def gameKey (g : Nat) (field : String) : List Char :=
  "game".toList ++ (Nat.repr g).toList ++ field.toList

/-- The last branch of `readCallback`: `for (int g=...; g<s_gameCount; g++)` comparing the
key with `game%dName`, `game%dLib`, `game%dIcon`, `game%dPath`.  The first argument is
the number of iterations left. -/
def gameFieldsLoop (key value : List Char) : Nat → Nat → List GameInfo → List GameInfo
  | 0, _, games => games
  | n + 1, g, games =>
    let games1 :=
      if strcasecmp key (gameKey g "Name") = 0 then
        modifyAt (fun info => { info with name := value }) games g
      else if strcasecmp key (gameKey g "Lib") = 0 then
        modifyAt (fun info => { info with lib := value }) games g
      else if strcasecmp key (gameKey g "Icon") = 0 then
        modifyAt (fun info => { info with iconFile := value }) games g
      else if strcasecmp key (gameKey g "Path") = 0 then
        modifyAt (fun info => { info with path := value }) games g
      else games
    gameFieldsLoop key value n (g + 1) games1

/-- The loop of the `launchGame` branch of `readCallback`, over the games from index `g`
on; the result is the new `launchGameID`, -1 when no name matches. -/
def findGame (value : List Char) : List GameInfo → Nat → Int
  | [], _ => -1
  | info :: rest, g =>
    if strcasecmp value info.name = 0 then (g : Int) else findGame value rest (g + 1)

/-- The store `s_settings.colorCorrect[i] = v`. -/
def setColor (s : XLSettings) (i : Nat) (v : F32) : XLSettings :=
  { s with colorCorrect := s.colorCorrect.set i v }

/-- The default-establishment branch of `readCallback` on `info = &s_games[s_keyMapping]`:
the action at index `actionCount` receives the name `key` and the keys parsed from
`value`, and `actionCount` is incremented. -/
def appendAction (key value : List Char) (info : GameInfo) : GameInfo :=
  { info with
    actionMapping :=
      modifyAt (fun action => assignKeyMappings { action with action := key } value)
        info.actionMapping info.actionCount,
    actionCount := info.actionCount + 1 }

/-- The override branch of `readCallback` on `info = &s_games[s_keyMapping]`: the first
action whose name equals `key` case-insensitively has its `keys` zeroed by `memset` and
reassigned from `value`; without such an action nothing changes. -/
def overrideAction (h : Header) (key value : List Char) (info : GameInfo) : GameInfo :=
  let actionID := findAction key (info.actionMapping.take info.actionCount) 0
  if actionID ≥ 0 then
    { info with
      actionMapping :=
        modifyAt (fun action => assignKeyMappings { action with keys := zeroKeys h } value)
          info.actionMapping actionID.toNat }
  else info

/-- The override branch of `readCallback` on `info = &s_games[s_keyMapping]` with the
bounds of `action->keys`: `none` when `assignKeyMappings` writes outside the array,
otherwise the game computed by `overrideAction`. -/
def overrideActionChecked (h : Header) (key value : List Char) (info : GameInfo) :
    Option GameInfo :=
  let actionID := findAction key (info.actionMapping.take info.actionCount) 0
  if actionID ≥ 0 then
    match info.actionMapping[actionID.toNat]? with
    | none => none
    | some action =>
      match assignKeyMappingsChecked { action with keys := zeroKeys h } value with
      | none => none
      | some action1 =>
        some { info with actionMapping := info.actionMapping.set actionID.toNat action1 }
  else some info

/-- Embedding of `readCallback(key, value)` as a function on the file-scope state; the
return value of the source is always `true`. -/
def readCallback (h : Header) (st : State) (key value : List Char) : State :=
  if strcasecmp key "fullscreen".toList = 0 then
    { st with s_settings := { st.s_settings with
        flags := setFlag st.s_settings.flags h.XL_FLAG_FULLSCREEN (readBool value) } }
  else if strcasecmp key "immediateExit".toList = 0 then
    { st with s_settings := { st.s_settings with
        flags := setFlag st.s_settings.flags h.XL_FLAG_IMMEDIATE_EXIT (readBool value) } }
  else if strcasecmp key "showAllGames".toList = 0 then
    { st with s_settings := { st.s_settings with
        flags := setFlag st.s_settings.flags h.XL_FLAG_SHOW_ALL_GAMES (readBool value) } }
  else if strcasecmp key "uiGlow".toList = 0 then
    { st with s_settings := { st.s_settings with
        flags := setFlag st.s_settings.flags h.XL_FLAG_UI_GLOW (readBool value) } }
  else if strcasecmp key "colorCorrect".toList = 0 then
    { st with s_settings := { st.s_settings with
        flags := setFlag st.s_settings.flags h.XL_FLAG_COLOR_CORRECT (readBool value) } }
  else if strcasecmp key "vsync".toList = 0 then
    { st with s_settings := { st.s_settings with
        flags := setFlag st.s_settings.flags h.XL_FLAG_VSYNC (readBool value) } }
  else if strcasecmp key "reduceCPU".toList = 0 then
    { st with s_settings := { st.s_settings with
        flags := setFlag st.s_settings.flags h.XL_FLAG_REDUCE_CPU (readBool value) } }
  else if strcasecmp key "launchGame".toList = 0 then
    { st with s_settings := { st.s_settings with
        launchGameID := findGame value (st.s_games.take st.s_gameCount.toNat) 0 } }
  else if strcasecmp key "frameLimit".toList = 0 then
    { st with s_settings := { st.s_settings with frameLimit := toS32 (strtol value) } }
  else if strcasecmp key "brightness".toList = 0 then
    { st with s_settings := setColor st.s_settings 0 (F32.percent value) }
  else if strcasecmp key "saturation".toList = 0 then
    { st with s_settings := setColor st.s_settings 1 (F32.percent value) }
  else if strcasecmp key "contrast".toList = 0 then
    { st with s_settings := setColor st.s_settings 2 (F32.percent value) }
  else if strcasecmp key "gamma".toList = 0 then
    { st with s_settings := setColor st.s_settings 3 (F32.percent value) }
  else if strcasecmp key "musicVolume".toList = 0 then
    { st with s_settings := { st.s_settings with musicVolume := toU32 (strtol value) } }
  else if strcasecmp key "soundVolume".toList = 0 then
    { st with s_settings := { st.s_settings with soundVolume := toU32 (strtol value) } }
  else if strcasecmp key "midiformat".toList = 0 then
    if strcasecmp value "gus".toList = 0 ∨ strcasecmp value "gravis".toList = 0 then
      { st with s_settings := { st.s_settings with midiformat := MidiFormat.MFMT_GUS_PATCH } }
    else if strcasecmp value "sf2".toList = 0 then
      { st with s_settings := { st.s_settings with midiformat := MidiFormat.MFMT_SOUND_FONT } }
    else st
  else if strcasecmp key "patchloc".toList = 0 then
    { st with s_settings := { st.s_settings with patchDataLoc := value } }
  else if strcasecmp key "graphicsDevice".toList = 0 then
    if strcasecmp value "openGL 1.3".toList = 0 ∨ strcasecmp value "openGL1.3".toList = 0 then
      { st with s_graphicsDeviceID := GraphicsDeviceID.GDEV_OPENGL_1_3 }
    else if strcasecmp value "openGL 2.0".toList = 0 ∨
        strcasecmp value "openGL2.0".toList = 0 then
      { st with s_graphicsDeviceID := GraphicsDeviceID.GDEV_OPENGL_2_0 }
    else if strcasecmp value "openGL 3.2".toList = 0 ∨
        strcasecmp value "openGL3.2".toList = 0 then
      { st with s_graphicsDeviceID := GraphicsDeviceID.GDEV_OPENGL_2_0 }
    else if strcasecmp value "autodetect".toList = 0 then
      { st with s_graphicsDeviceID := GraphicsDeviceID.GDEV_INVALID }
    else st
  else if strcasecmp key "windowScale".toList = 0 then
    { st with s_settings := { st.s_settings with windowScale := toS32 (strtol value) } }
  else if strcasecmp key "gameScale".toList = 0 then
    { st with s_settings := { st.s_settings with gameScale := toS32 (strtol value) } }
  else if strcasecmp key "gameCount".toList = 0 then
    { st with s_gameCount := toS32 (strtol value) }
  else if strcasecmp key "keyMapping".toList = 0 then
    { st with s_keyMapping := toS32 (strtol value) }
  else if st.s_keyMapping ≥ 0 ∧ st.s_setDefaultMapping = true then
    { st with s_games := modifyAt (appendAction key value) st.s_games st.s_keyMapping.toNat }
  else if st.s_keyMapping ≥ 0 then
    { st with s_games := modifyAt (overrideAction h key value) st.s_games st.s_keyMapping.toNat }
  else
    { st with s_games := gameFieldsLoop key value st.s_gameCount.toNat 0 st.s_games }

/-- The keys that `readCallback` tests before it reaches the key-mapping branches. -/
def reservedKeys : List (List Char) :=
  ["fullscreen".toList, "immediateExit".toList, "showAllGames".toList, "uiGlow".toList,
   "colorCorrect".toList, "vsync".toList, "reduceCPU".toList, "launchGame".toList,
   "frameLimit".toList, "brightness".toList, "saturation".toList, "contrast".toList,
   "gamma".toList, "musicVolume".toList, "soundVolume".toList, "midiformat".toList,
   "patchloc".toList, "graphicsDevice".toList, "windowScale".toList, "gameScale".toList,
   "gameCount".toList, "keyMapping".toList]

/-- The contract of `iniReader::readIni(file, readCallback)` on a readable file: the
callback is applied to the key/value pairs of the file, in file order. -/
def readPairs (h : Header) (st : State) (pairs : List (List Char × List Char)) : State :=
  pairs.foldl (fun acc kv => readCallback h acc kv.1 kv.2) st

/-- Whether the call `readCallback(key, value)` keeps its accesses to the registry inside
the arrays: `s_games` (indexed by `s_keyMapping`, and by `g < s_gameCount` in the
`launchGame` branch and in the last branch), `actionMapping` (indexed by `actionCount` or
by the action found) and `keys` (written by `assignKeyMappings`).  The result is `true`
only if every such access is in bounds, and then `readCallback` is the state computed by
the source.  The character buffers filled by `strcpy` (names, paths, `patchDataLoc`) have
sizes declared in `settings.h` and are taken to be large enough. -/
def readCallbackInBounds (h : Header) (st : State) (key value : List Char) : Bool :=
  if strcasecmp key "launchGame".toList = 0 then decide (st.s_gameCount ≤ st.s_games.length)
  else if reservedKeys.any (fun k => strcasecmp key k == 0) then true
  else if st.s_keyMapping ≥ 0 ∧ st.s_setDefaultMapping = true then
    match st.s_games[st.s_keyMapping.toNat]? with
    | none => false
    | some info =>
      match info.actionMapping[info.actionCount]? with
      | none => false
      | some action => (assignKeyMappingsChecked { action with action := key } value).isSome
  else if st.s_keyMapping ≥ 0 then
    match st.s_games[st.s_keyMapping.toNat]? with
    | none => false
    | some info => (overrideActionChecked h key value info).isSome
  else decide (st.s_gameCount ≤ st.s_games.length)

/-- Whether every call of `readCallback` made by `readPairs` on the pairs of a file keeps
its accesses to the registry inside the arrays. -/
def readPairsInBounds (h : Header) : State → List (List Char × List Char) → Bool
  | _, [] => true
  | st, kv :: rest =>
    readCallbackInBounds h st kv.1 kv.2 && readPairsInBounds h (readCallback h st kv.1 kv.2) rest

/-- The value of `MAX_GAME_COUNT`. -/
def MAX_GAME_COUNT : Nat := 256

/-- An `ActionMapping` whose bytes are all zero: empty name, empty slots, count 0. -/
def zeroAction (h : Header) : ActionMapping :=
  { action := [], keys := zeroKeys h, mappingCount := 0 }

/-- A `GameInfo` after `memset(s_games, 0, sizeof(GameInfo)*MAX_GAME_COUNT)`: empty
strings, zero counts, `actionMapping` with the capacity of the header. -/
def zeroGameInfo (h : Header) : GameInfo :=
  { name := [], lib := [], iconFile := [], path := [], iconID := 0, actionCount := 0
    actionMapping := List.replicate h.MAX_ACTION_COUNT (zeroAction h) }

/-- The state in which `readGameData` hands `xlgames.ini` to the reader:
`s_keyMapping = -1`, `s_setDefaultMapping = true`, `s_games` zeroed. -/
def readGameDataInit (h : Header) (st : State) : State :=
  { st with
    s_keyMapping := -1
    s_setDefaultMapping := true
    s_games := List.replicate MAX_GAME_COUNT (zeroGameInfo h) }

/-- The state in which `read` hands `xlsettings.ini` to the reader: `s_keyMapping = -1`,
`s_setDefaultMapping = false`. -/
def readSettingsInit (st : State) : State :=
  { st with s_keyMapping := -1, s_setDefaultMapping := false }

/-- The default value of `s_settings`, with the flag constants of the header. -/
def s_settings_default (h : Header) : XLSettings :=
  { flags := h.XL_FLAG_SHOW_ALL_GAMES ||| h.XL_FLAG_UI_GLOW
    launchGameID := -1
    frameLimit := 120
    windowScale := 4
    gameScale := 4
    windowWidth := 320 * 4
    windowHeight := 240 * 4
    gameWidth := 320 * 4
    gameHeight := 200 * 4
    colorCorrect := [F32.one, F32.one, F32.one, F32.one]
    midiformat := MidiFormat.MFMT_GUS_PATCH
    patchDataLoc := "Sound/freepats/freepats.cfg".toList
    musicVolume := 100
    soundVolume := 100 }

/-- A header instance for concrete evaluations: seven distinct flag bits, small capacities. -/
def sampleHeader : Header :=
  { XL_FLAG_FULLSCREEN := 1
    XL_FLAG_IMMEDIATE_EXIT := 2
    XL_FLAG_SHOW_ALL_GAMES := 4
    XL_FLAG_UI_GLOW := 8
    XL_FLAG_COLOR_CORRECT := 16
    XL_FLAG_VSYNC := 32
    XL_FLAG_REDUCE_CPU := 64
    MAX_MAPPING_COUNT := 4
    MAX_ACTION_COUNT := 4 }

/-- The file-scope variables at program start, with the default settings. -/
def initialState (h : Header) : State :=
  { s_settings := s_settings_default h
    s_gameCount := 0
    s_gameID := -1
    s_keyMapping := -1
    s_setDefaultMapping := false
    s_games := List.replicate MAX_GAME_COUNT (zeroGameInfo h)
    s_graphicsDeviceID := GraphicsDeviceID.GDEV_INVALID }

/-- The C string that a character buffer denotes: the characters before the first NUL. -/
def cstr (s : List Char) : List Char :=
  s.takeWhile (fun c => c != NUL)

/-- The key list of an action: the strings `keys[0 .. mappingCount)`. -/
def keyList (action : ActionMapping) : List (List Char) :=
  action.keys.take action.mappingCount

/-- The part of a game that the settings pass must not change: its `actionCount` and the
names of its actions. -/
def actionSignature (info : GameInfo) : Nat × List (List Char) :=
  (info.actionCount, info.actionMapping.map (fun action => action.action))

/-- The seven flag keys of `readCallback`, each with the flag constant it sets or clears,
in the order in which the keys are tested. -/
def flagKeys (h : Header) : List (List Char × Nat) :=
  [("fullscreen".toList, h.XL_FLAG_FULLSCREEN),
   ("immediateExit".toList, h.XL_FLAG_IMMEDIATE_EXIT),
   ("showAllGames".toList, h.XL_FLAG_SHOW_ALL_GAMES),
   ("uiGlow".toList, h.XL_FLAG_UI_GLOW),
   ("colorCorrect".toList, h.XL_FLAG_COLOR_CORRECT),
   ("vsync".toList, h.XL_FLAG_VSYNC),
   ("reduceCPU".toList, h.XL_FLAG_REDUCE_CPU)]

/-- The condition of the first fixup loop of `read`. -/
def windowCond (monitorWidth monitorHeight : Int) (s : XLSettings) : Prop :=
  s.windowScale > 3 ∧ (s.windowWidth > monitorWidth ∨ s.windowHeight > monitorHeight)

/-- The body of the first fixup loop of `read`, on the settings. -/
def windowBody (s : XLSettings) : XLSettings :=
  { s with
    windowScale := s.windowScale - 1
    windowWidth := toS32 (320 * (s.windowScale - 1))
    windowHeight := toS32 (240 * (s.windowScale - 1)) }

/-- The condition of the second fixup loop of `read`. -/
def gameCond (s : XLSettings) : Prop :=
  s.gameScale > 1 ∧ (s.gameWidth > s.windowWidth ∨ s.gameHeight > s.windowHeight)

/-- The body of the second fixup loop of `read`, on the settings. -/
def gameBody (s : XLSettings) : XLSettings :=
  { s with
    gameScale := s.gameScale - 1
    gameWidth := toS32 (320 * (s.gameScale - 1))
    gameHeight := toS32 (200 * (s.gameScale - 1)) }

/-- The four assignments that open the reconcile-on-load step of `read`: the window and
game sizes recomputed from the stored scales. -/
def recomputeSizes (s : XLSettings) : XLSettings :=
  { s with
    windowWidth := toS32 (320 * s.windowScale)
    windowHeight := toS32 (240 * s.windowScale)
    gameWidth := toS32 (320 * s.gameScale)
    gameHeight := toS32 (200 * s.gameScale) }

/-- The reconcile-on-load step of `read` with the iteration bounds of its two loops given
from outside; `reconcileOnLoad` is the instance with the bounds `windowScale - 3` and
`gameScale - 1`. -/
def reconcileWithFuel (h : Header) (monitorWidth monitorHeight : Int) (fuelWindow fuelGame : Nat)
    (s : XLSettings) : XLSettings × Bool :=
  let s1 : XLSettings :=
    { s with
      windowWidth := toS32 (320 * s.windowScale)
      windowHeight := toS32 (240 * s.windowScale)
      gameWidth := toS32 (320 * s.gameScale)
      gameHeight := toS32 (200 * s.gameScale) }
  let r2 := windowFixup monitorWidth monitorHeight fuelWindow (s1, false)
  let r3 := windowClamp h monitorWidth monitorHeight r2
  gameFixup fuelGame r3

/-- What a call of `read` leaves behind: its return value, the file-scope state, and
whether `write()` was called. -/
structure ReadOutcome where
  returned : Bool
  state : State
  written : Bool
deriving DecidableEq, Repr

/-- Embedding of `read(monitorWidth, monitorHeight)`.  The two ini files are given by what
`iniReader::readIni` delivers for them: `none` when the file cannot be read (`readIni`
returns false), otherwise the key/value pairs in file order.  The version string set by
`readBuildVersion` is not part of the state. -/
def read (h : Header) (monitorWidth monitorHeight : Int)
    (xlgames xlsettings : Option (List (List Char × List Char))) (st : State) : ReadOutcome :=
  match xlgames with
  | none => { returned := false, state := readGameDataInit h st, written := false }
  | some gamePairs =>
    let st1 := readPairs h (readGameDataInit h st) gamePairs
    let st2 : State :=
      { st1 with s_settings := chooseDefaultResolution h monitorWidth monitorHeight st1.s_settings }
    let st3 := readSettingsInit st2
    match xlsettings with
    | none => { returned := true, state := st3, written := true }
    | some settingsPairs =>
      let st4 := readPairs h st3 settingsPairs
      let r := reconcileOnLoad h monitorWidth monitorHeight st4.s_settings
      { returned := true, state := { st4 with s_settings := r.1 }, written := r.2 }

/-- The state at the end of the settings pass of `read`, when both ini files are
readable: game-data pass, `chooseDefaultResolution`, then the pairs of `xlsettings.ini`;
its `s_settings` holds the stored scales that the reconcile-on-load step starts from. -/
def settingsPassState (h : Header) (monitorWidth monitorHeight : Int)
    (gamePairs settingsPairs : List (List Char × List Char)) (st : State) : State :=
  let st1 := readPairs h (readGameDataInit h st) gamePairs
  let st2 : State :=
    { st1 with s_settings := chooseDefaultResolution h monitorWidth monitorHeight st1.s_settings }
  readPairs h (readSettingsInit st2) settingsPairs

/-- The state after a game-data pass over the pairs `gameCount=1`, `game0Name=DarkXL`,
`keyMapping=0`, `Jump=Space`. -/
def gameDataExample : State :=
  readPairs sampleHeader (readGameDataInit sampleHeader (initialState sampleHeader))
    [("gameCount".toList, "1".toList), ("game0Name".toList, "DarkXL".toList),
     ("keyMapping".toList, "0".toList), ("Jump".toList, "Space".toList)]

/-- Game 0 of `gameDataExample`: the single action `Jump` bound to `Space`. -/
def jumpExample : GameInfo :=
  { name := "DarkXL".toList, lib := [], iconFile := [], path := [], iconID := 0
    actionCount := 1
    actionMapping :=
      [{ action := "Jump".toList, keys := ["Space".toList, [], [], []], mappingCount := 1 },
       zeroAction sampleHeader, zeroAction sampleHeader, zeroAction sampleHeader] }

/-- A key list of three names of 200 characters each: every name fits a slot of 256 bytes,
the list joined by commas has 602 characters. -/
def longKeysExample : List Char :=
  List.replicate 200 'a' ++ ',' :: (List.replicate 200 'b' ++ ',' :: List.replicate 200 'c')

/-- The state of the settings pass after `gameDataExample`, once the pair `keyMapping=0`
has opened the mapping block of game 0. -/
def settingsBlockExample : State :=
  readCallback sampleHeader (readSettingsInit gameDataExample) "keyMapping".toList "0".toList

end Settings

namespace Settings

/-! ## Resolution: `chooseDefaultResolution` and the reconcile-on-load step of `read` -/

theorem scaleSearch_spec (base monitorWidth monitorHeight : Int) (n : Nat)
    (hw : 0 ≤ monitorWidth) (hh : 0 ≤ monitorHeight) :
    ∃ k : Int, scaleSearch base monitorWidth monitorHeight n = some k ∧ 0 ≤ k ∧ k ≤ n ∧
      320 * k ≤ monitorWidth ∧ base * k ≤ monitorHeight ∧
      (∀ t : Int, t ≤ n → 320 * t ≤ monitorWidth → base * t ≤ monitorHeight → t ≤ k) ∧
      (k = n ∨ 320 * (k + 1) > monitorWidth ∨ base * (k + 1) > monitorHeight) := by
  induction n with
  | zero =>
    refine ⟨0, ?_, le_refl _, by simp, by simpa using hw, by simpa using hh, ?_, Or.inl (by simp)⟩
    · simp [scaleSearch, hw, hh]
    · intro t ht _ _; simpa using ht
  | succ n ih =>
    by_cases hc : 320 * ((n : Int) + 1) ≤ monitorWidth ∧ base * ((n : Int) + 1) ≤ monitorHeight
    · refine ⟨(n : Int) + 1, ?_, by omega, by simp, hc.1, hc.2, ?_, Or.inl (by simp)⟩
      · rw [scaleSearch, if_pos hc]
      · intro t ht _ _; simpa using ht
    · obtain ⟨k, hk, hk0, hkn, hkw, hkh, hmax, hsucc⟩ := ih
      refine ⟨k, ?_, hk0, by push_cast; omega, hkw, hkh, ?_, ?_⟩
      · rw [scaleSearch, if_neg hc]; exact hk
      · intro t ht htw hth
        have htne : t ≠ (n : Int) + 1 := by
          rintro rfl
          exact hc ⟨htw, hth⟩
        exact hmax t (by push_cast at ht; omega) htw hth
      · rcases hsucc with h1 | h2
        · subst h1
          right
          by_contra hcon
          push_neg at hcon
          exact hc ⟨hcon.1, hcon.2⟩
        · exact Or.inr h2

theorem windowFixup_fix (monitorWidth monitorHeight : Int) (fuel : Nat) (s : XLSettings)
    (w : Bool)
    (hc : ¬ (s.windowScale > 3 ∧
      (s.windowWidth > monitorWidth ∨ s.windowHeight > monitorHeight))) :
    windowFixup monitorWidth monitorHeight fuel (s, w) = (s, w) := by
  cases fuel with
  | zero => rfl
  | succ n => rw [windowFixup, if_neg hc]

theorem gameFixup_fix (fuel : Nat) (s : XLSettings) (w : Bool)
    (hc : ¬ (s.gameScale > 1 ∧
      (s.gameWidth > s.windowWidth ∨ s.gameHeight > s.windowHeight))) :
    gameFixup fuel (s, w) = (s, w) := by
  cases fuel with
  | zero => rfl
  | succ n => rw [gameFixup, if_neg hc]

theorem toS32_eq_self (x : Int) (h1 : -2147483648 ≤ x) (h2 : x ≤ 2147483647) :
    toS32 x = x := by
  unfold toS32
  omega

theorem windowFixup_spec (monitorWidth monitorHeight : Int) (fuel : Nat) (s : XLSettings)
    (w : Bool) (hfuel : (s.windowScale - 3).toNat ≤ fuel)
    (hW : s.windowWidth = toS32 (320 * s.windowScale))
    (hH : s.windowHeight = toS32 (240 * s.windowScale)) :
    ∃ k : Int, k ≤ s.windowScale ∧ (s.windowScale ≤ 3 → k = s.windowScale) ∧
      (3 < s.windowScale → 3 ≤ k) ∧
      windowFixup monitorWidth monitorHeight fuel (s, w) =
        ({ s with
            windowScale := k
            windowWidth := toS32 (320 * k)
            windowHeight := toS32 (240 * k) },
          w || decide (k ≠ s.windowScale)) ∧
      ¬ (k > 3 ∧ (toS32 (320 * k) > monitorWidth ∨ toS32 (240 * k) > monitorHeight)) := by
  induction fuel generalizing s w with
  | zero =>
    refine ⟨s.windowScale, le_refl _, fun _ => rfl, fun h => by omega, ?_, ?_⟩
    · obtain ⟨f, l, fl, ws, gs, ww, wh, gw, gh, cc, mf, pl, mv, sv⟩ := s
      simp only [windowFixup] at *
      simp [hW, hH]
    · intro hc
      have : s.windowScale ≤ 3 := by omega
      omega
  | succ n ih =>
    by_cases hc : s.windowScale > 3 ∧
        (s.windowWidth > monitorWidth ∨ s.windowHeight > monitorHeight)
    · obtain ⟨k, hk1, hk2, hk3, hk4, hk5⟩ := ih
        { s with
          windowScale := s.windowScale - 1
          windowWidth := toS32 (320 * (s.windowScale - 1))
          windowHeight := toS32 (240 * (s.windowScale - 1)) } true
        (by simp only; omega) rfl rfl
      simp only at hk1 hk2 hk3 hk4
      refine ⟨k, by omega, fun h => by omega, fun _ => ?_, ?_, hk5⟩
      · by_cases h4 : 3 < s.windowScale - 1
        · exact hk3 h4
        · have := hk2 (by omega); omega
      · rw [windowFixup, if_pos hc, hk4]
        have hne : k ≠ s.windowScale := by omega
        simp [hne]
    · refine ⟨s.windowScale, le_refl _, fun _ => rfl, fun h => by omega, ?_, ?_⟩
      · rw [windowFixup, if_neg hc]
        obtain ⟨f, l, fl, ws, gs, ww, wh, gw, gh, cc, mf, pl, mv, sv⟩ := s
        simp only at hW hH
        simp [hW, hH]
      · rw [hW, hH] at hc; exact hc

theorem gameFixup_spec (fuel : Nat) (s : XLSettings)
    (w : Bool) (hfuel : (s.gameScale - 1).toNat ≤ fuel)
    (hW : s.gameWidth = toS32 (320 * s.gameScale))
    (hH : s.gameHeight = toS32 (200 * s.gameScale)) :
    ∃ k : Int, k ≤ s.gameScale ∧ (s.gameScale ≤ 1 → k = s.gameScale) ∧
      (1 < s.gameScale → 1 ≤ k) ∧
      gameFixup fuel (s, w) =
        ({ s with
            gameScale := k
            gameWidth := toS32 (320 * k)
            gameHeight := toS32 (200 * k) },
          w || decide (k ≠ s.gameScale)) ∧
      ¬ (k > 1 ∧ (toS32 (320 * k) > s.windowWidth ∨ toS32 (200 * k) > s.windowHeight)) := by
  induction fuel generalizing s w with
  | zero =>
    refine ⟨s.gameScale, le_refl _, fun _ => rfl, fun h => by omega, ?_, ?_⟩
    · obtain ⟨f, l, fl, ws, gs, ww, wh, gw, gh, cc, mf, pl, mv, sv⟩ := s
      simp only [gameFixup] at *
      simp [hW, hH]
    · intro hc
      have : s.gameScale ≤ 1 := by omega
      omega
  | succ n ih =>
    by_cases hc : s.gameScale > 1 ∧
        (s.gameWidth > s.windowWidth ∨ s.gameHeight > s.windowHeight)
    · obtain ⟨k, hk1, hk2, hk3, hk4, hk5⟩ := ih
        { s with
          gameScale := s.gameScale - 1
          gameWidth := toS32 (320 * (s.gameScale - 1))
          gameHeight := toS32 (200 * (s.gameScale - 1)) } true
        (by simp only; omega) rfl rfl
      simp only at hk1 hk2 hk3 hk4 hk5
      refine ⟨k, by omega, fun h => by omega, fun _ => ?_, ?_, hk5⟩
      · by_cases h4 : 1 < s.gameScale - 1
        · exact hk3 h4
        · have := hk2 (by omega); omega
      · rw [gameFixup, if_pos hc, hk4]
        have hne : k ≠ s.gameScale := by omega
        simp [hne]
    · refine ⟨s.gameScale, le_refl _, fun _ => rfl, fun h => by omega, ?_, ?_⟩
      · rw [gameFixup, if_neg hc]
        obtain ⟨f, l, fl, ws, gs, ww, wh, gw, gh, cc, mf, pl, mv, sv⟩ := s
        simp only at hW hH
        simp [hW, hH]
      · rw [hW, hH] at hc; exact hc

/-- Shape of the result of `reconcileOnLoad`: the final scales `kw`, `kg`, where they lie,
the exit conditions of both loops, and `writeRequired`. -/
theorem reconcileOnLoad_spec (h : Header) (monitorWidth monitorHeight : Int) (s : XLSettings) :
    ∃ kw kg : Int,
      reconcileOnLoad h monitorWidth monitorHeight s =
        ({ s with
            windowScale := kw
            gameScale := kg
            windowWidth := if fullscreenSet h s then monitorWidth else toS32 (320 * kw)
            windowHeight := if fullscreenSet h s then monitorHeight else toS32 (240 * kw)
            gameWidth := toS32 (320 * kg)
            gameHeight := toS32 (200 * kg) },
          decide (kw ≠ s.windowScale) || decide (kg ≠ s.gameScale)) ∧
      ¬ (kw > 3 ∧ (toS32 (320 * kw) > monitorWidth ∨ toS32 (240 * kw) > monitorHeight)) ∧
      (fullscreenSet h s = false → 3 ≤ kw) ∧
      ¬ (kg > 1 ∧
          (toS32 (320 * kg) >
              (if fullscreenSet h s then monitorWidth else toS32 (320 * kw)) ∨
           toS32 (200 * kg) >
              (if fullscreenSet h s then monitorHeight else toS32 (240 * kw)))) ∧
      ((3 ≤ kw ∧ kw ≤ s.windowScale) ∨ kw = s.windowScale ∨ kw = 3) ∧
      ((1 ≤ kg ∧ kg ≤ s.gameScale) ∨ kg = s.gameScale) := by
  obtain ⟨f, l, fl, ws, gs, ww, wh, gw, gh, cc, mf, pl, mv, sv⟩ := s
  obtain ⟨k, hk1, hk2, hk3, hk4, hk5⟩ := windowFixup_spec monitorWidth monitorHeight
    (ws - 3).toNat
    { flags := f, launchGameID := l, frameLimit := fl, windowScale := ws, gameScale := gs,
      windowWidth := toS32 (320 * ws), windowHeight := toS32 (240 * ws),
      gameWidth := toS32 (320 * gs), gameHeight := toS32 (200 * gs), colorCorrect := cc,
      midiformat := mf, patchDataLoc := pl,
      musicVolume := mv, soundVolume := sv } false (le_refl _) rfl rfl
  simp only at hk1 hk2 hk3 hk4
  have hkr : (3 ≤ k ∧ k ≤ ws) ∨ k = ws := by
    rcases lt_or_ge 3 ws with h4 | h4
    · exact Or.inl ⟨hk3 h4, hk1⟩
    · exact Or.inr (hk2 h4)
  by_cases hfs : (f &&& h.XL_FLAG_FULLSCREEN) != 0
  · obtain ⟨g, hg1, hg2, hg3, hg4, hg5⟩ := gameFixup_spec (gs - 1).toNat
      { flags := f, launchGameID := l, frameLimit := fl, windowScale := k, gameScale := gs,
        windowWidth := monitorWidth, windowHeight := monitorHeight,
        gameWidth := toS32 (320 * gs), gameHeight := toS32 (200 * gs), colorCorrect := cc,
        midiformat := mf, patchDataLoc := pl,
        musicVolume := mv, soundVolume := sv } (false || decide (k ≠ ws)) (le_refl _) rfl rfl
    simp only at hg1 hg2 hg3 hg4 hg5
    have hgr : (1 ≤ g ∧ g ≤ gs) ∨ g = gs := by
      rcases lt_or_ge 1 gs with h4 | h4
      · exact Or.inl ⟨hg3 h4, hg1⟩
      · exact Or.inr (hg2 h4)
    refine ⟨k, g, ?_, hk5, ?_, ?_, ?_, hgr⟩
    · simp only [reconcileOnLoad]
      rw [hk4]
      simp only [windowClamp, fullscreenSet]
      rw [if_pos hfs, hg4]
      simp [hfs]
    · simp [fullscreenSet, hfs]
    · simpa [fullscreenSet, hfs] using hg5
    · rcases hkr with hkr | hkr
      · exact Or.inl hkr
      · exact Or.inr (Or.inl hkr)
  · by_cases h3 : k < 3
    · obtain ⟨g, hg1, hg2, hg3, hg4, hg5⟩ := gameFixup_spec (gs - 1).toNat
        { flags := f, launchGameID := l, frameLimit := fl, windowScale := 3, gameScale := gs,
          windowWidth := 320 * 3, windowHeight := 240 * 3,
          gameWidth := toS32 (320 * gs), gameHeight := toS32 (200 * gs), colorCorrect := cc,
          midiformat := mf, patchDataLoc := pl,
          musicVolume := mv, soundVolume := sv } true (le_refl _) rfl rfl
      simp only at hg1 hg2 hg3 hg4 hg5
      have hgr : (1 ≤ g ∧ g ≤ gs) ∨ g = gs := by
        rcases lt_or_ge 1 gs with h4 | h4
        · exact Or.inl ⟨hg3 h4, hg1⟩
        · exact Or.inr (hg2 h4)
      have hws : ws < 3 := by
        by_contra hcon
        have : 3 ≤ k := by
          rcases lt_or_ge 3 ws with h4 | h4
          · exact hk3 h4
          · have := hk2 h4; omega
        omega
      have h960 : toS32 (320 * 3) = 320 * 3 := by decide
      have h720 : toS32 (240 * 3) = 240 * 3 := by decide
      have h960n : toS32 960 = 960 := by decide
      have h720n : toS32 720 = 720 := by decide
      refine ⟨3, g, ?_, by omega, fun _ => le_refl _, ?_, Or.inr (Or.inr rfl), hgr⟩
      · have hne : (3 : Int) ≠ ws := by omega
        simp only [reconcileOnLoad]
        rw [hk4]
        simp only [windowClamp, fullscreenSet]
        rw [if_neg hfs, if_pos h3, hg4]
        simp [hne, hfs, h960n, h720n]
      · rw [h960, h720]
        simpa [fullscreenSet, hfs] using hg5
    · obtain ⟨g, hg1, hg2, hg3, hg4, hg5⟩ := gameFixup_spec (gs - 1).toNat
        { flags := f, launchGameID := l, frameLimit := fl, windowScale := k, gameScale := gs,
          windowWidth := toS32 (320 * k), windowHeight := toS32 (240 * k),
          gameWidth := toS32 (320 * gs), gameHeight := toS32 (200 * gs), colorCorrect := cc,
          midiformat := mf, patchDataLoc := pl,
          musicVolume := mv, soundVolume := sv } (false || decide (k ≠ ws)) (le_refl _) rfl rfl
      simp only at hg1 hg2 hg3 hg4 hg5
      have hgr : (1 ≤ g ∧ g ≤ gs) ∨ g = gs := by
        rcases lt_or_ge 1 gs with h4 | h4
        · exact Or.inl ⟨hg3 h4, hg1⟩
        · exact Or.inr (hg2 h4)
      refine ⟨k, g, ?_, hk5, fun _ => by omega, ?_, ?_, hgr⟩
      · simp only [reconcileOnLoad]
        rw [hk4]
        simp only [windowClamp, fullscreenSet]
        rw [if_neg hfs, if_neg h3, hg4]
        simp [hfs]
      · simpa [fullscreenSet, hfs] using hg5
      · rcases hkr with hkr | hkr
        · exact Or.inl hkr
        · exact Or.inr (Or.inl hkr)

/-- The sizes after `reconcileOnLoad` when the products of the stored scales are
representable in 32 bits: the game is within the window as soon as the window is at least
320x200 or the final game scale is above 1. -/
theorem reconcileOnLoad_within (h : Header) (monitorWidth monitorHeight : Int)
    (s : XLSettings)
    (hws : -2147483648 ≤ 320 * s.windowScale ∧ 320 * s.windowScale ≤ 2147483647)
    (hgs : -2147483648 ≤ 320 * s.gameScale ∧ 320 * s.gameScale ≤ 2147483647)
    (hm : fullscreenSet h s = false ∨ (320 ≤ monitorWidth ∧ 200 ≤ monitorHeight)) :
    (reconcileOnLoad h monitorWidth monitorHeight s).1.gameWidth ≤
        (reconcileOnLoad h monitorWidth monitorHeight s).1.windowWidth ∧
      (reconcileOnLoad h monitorWidth monitorHeight s).1.gameHeight ≤
        (reconcileOnLoad h monitorWidth monitorHeight s).1.windowHeight := by
  obtain ⟨kw, kg, hr, _, h3, hg, hkw, hkg⟩ := reconcileOnLoad_spec h monitorWidth monitorHeight s
  rw [hr]
  have e1 : toS32 (320 * kg) = 320 * kg := toS32_eq_self _ (by omega) (by omega)
  have e2 : toS32 (200 * kg) = 200 * kg := toS32_eq_self _ (by omega) (by omega)
  rw [e1, e2] at hg
  simp only [e1, e2]
  by_cases hfs : fullscreenSet h s = true
  · simp only [hfs, if_true] at hg ⊢
    rcases hm with hm | ⟨hm1, hm2⟩
    · rw [hfs] at hm; exact absurd hm (by decide)
    · exact ⟨by omega, by omega⟩
  · have hfs2 : fullscreenSet h s = false := by simpa using hfs
    have h3k : 3 ≤ kw := h3 hfs2
    have e3 : toS32 (320 * kw) = 320 * kw := toS32_eq_self _ (by omega) (by omega)
    have e4 : toS32 (240 * kw) = 240 * kw := toS32_eq_self _ (by omega) (by omega)
    rw [e3, e4] at hg
    simp only [hfs2, Bool.false_eq_true, if_false, e3, e4] at hg ⊢
    exact ⟨by omega, by omega⟩

/-- C1 (refuted as stated). On a 1920x1080 monitor with the fullscreen flag clear, the
stored windowScale 268435456 and gameScale 4: the products 320*windowScale and
240*windowScale are 0 in 32 bits, so neither the first loop nor the clamp runs, the window
stays 0x0, and the second loop stops at gameScale 1 with the game 320x200 above it. -/
theorem reconcileOnLoad_postcondition_counterexample :
    (960 : Int) ≤ 1920 ∧ (720 : Int) ≤ 1080 ∧
    fullscreenSet sampleHeader
      { s_settings_default sampleHeader with windowScale := 268435456, gameScale := 4 } = false ∧
    (reconcileOnLoad sampleHeader 1920 1080
      { s_settings_default sampleHeader with
        windowScale := 268435456, gameScale := 4 }).1.windowWidth = 0 ∧
    (reconcileOnLoad sampleHeader 1920 1080
      { s_settings_default sampleHeader with
        windowScale := 268435456, gameScale := 4 }).1.gameWidth = 320 ∧
    ¬ ((reconcileOnLoad sampleHeader 1920 1080
          { s_settings_default sampleHeader with
            windowScale := 268435456, gameScale := 4 }).1.gameWidth ≤
        (reconcileOnLoad sampleHeader 1920 1080
          { s_settings_default sampleHeader with
            windowScale := 268435456, gameScale := 4 }).1.windowWidth) := by
  decide

/-- C1 (amended). Reconciliation postcondition: for every monitor of at least 960x720,
every stored windowScale and gameScale and every flag set, the settings produced by the
reconcile-on-load step of read have windowScale >= 3 whenever the fullscreen flag is
clear, and, when 320*windowScale and 320*gameScale of the stored scales are representable
in 32 bits, they have gameWidth <= windowWidth and gameHeight <= windowHeight. -/
theorem reconcileOnLoad_postcondition (h : Header) (monitorWidth monitorHeight : Int)
    (s : XLSettings) (hw : 960 ≤ monitorWidth) (hh : 720 ≤ monitorHeight) :
    (-2147483648 ≤ 320 * s.windowScale ∧ 320 * s.windowScale ≤ 2147483647 →
      -2147483648 ≤ 320 * s.gameScale ∧ 320 * s.gameScale ≤ 2147483647 →
      (reconcileOnLoad h monitorWidth monitorHeight s).1.gameWidth ≤
          (reconcileOnLoad h monitorWidth monitorHeight s).1.windowWidth ∧
        (reconcileOnLoad h monitorWidth monitorHeight s).1.gameHeight ≤
          (reconcileOnLoad h monitorWidth monitorHeight s).1.windowHeight) ∧
      (fullscreenSet h (reconcileOnLoad h monitorWidth monitorHeight s).1 = false →
        3 ≤ (reconcileOnLoad h monitorWidth monitorHeight s).1.windowScale) := by
  refine ⟨fun hws hgs =>
    reconcileOnLoad_within h monitorWidth monitorHeight s hws hgs
      (Or.inr ⟨by omega, by omega⟩), ?_⟩
  obtain ⟨kw, kg, hr, _, h3, _, _, _⟩ := reconcileOnLoad_spec h monitorWidth monitorHeight s
  rw [hr]
  intro hfs
  exact h3 (by simpa [fullscreenSet] using hfs)

/-- C1 (amended), concrete instance: monitor 1024x768, stored windowScale 7 and
gameScale 9. -/
theorem reconcileOnLoad_postcondition_witness :
    (960 : Int) ≤ 1024 ∧ (720 : Int) ≤ 768 ∧
    (-2147483648 ≤ 320 * (7 : Int) ∧ 320 * (7 : Int) ≤ 2147483647) ∧
    (-2147483648 ≤ 320 * (9 : Int) ∧ 320 * (9 : Int) ≤ 2147483647) ∧
    (reconcileOnLoad sampleHeader 1024 768
        { s_settings_default sampleHeader with windowScale := 7, gameScale := 9 }).1.gameWidth ≤
      (reconcileOnLoad sampleHeader 1024 768
        { s_settings_default sampleHeader with windowScale := 7, gameScale := 9 }).1.windowWidth :=
  ⟨by decide, by decide, by decide, by decide,
    ((reconcileOnLoad_postcondition sampleHeader 1024 768
      { s_settings_default sampleHeader with windowScale := 7, gameScale := 9 }
      (by decide) (by decide)).1 (by decide) (by decide)).1⟩

/-- C2. Reconciliation is idempotent: applying the reconcile-on-load step of read to its
own output, with the same monitor size, returns that output unchanged (the same
windowScale, gameScale, windowWidth, windowHeight, gameWidth and gameHeight, and every
other field). -/
theorem reconcileOnLoad_idempotent (h : Header) (monitorWidth monitorHeight : Int)
    (s : XLSettings) :
    (reconcileOnLoad h monitorWidth monitorHeight
        (reconcileOnLoad h monitorWidth monitorHeight s).1).1 =
      (reconcileOnLoad h monitorWidth monitorHeight s).1 := by
  obtain ⟨kw, kg, hr, hkw, h3, hg, _, _⟩ := reconcileOnLoad_spec h monitorWidth monitorHeight s
  rw [hr]
  obtain ⟨f, l, fl, ws, gs, ww, wh, gw, gh, cc, mf, pl, mv, sv⟩ := s
  simp only [fullscreenSet] at *
  simp only [reconcileOnLoad]
  rw [windowFixup_fix _ _ _ _ _ (by simpa using hkw)]
  by_cases hfs : (f &&& h.XL_FLAG_FULLSCREEN != 0) = true
  · simp only [hfs, if_true] at hg ⊢
    simp only [windowClamp, fullscreenSet]
    rw [if_pos hfs, gameFixup_fix _ _ _ (by simpa using hg)]
  · simp only [hfs, if_false] at hg ⊢
    have h3k : ¬ kw < 3 := not_lt.mpr (h3 (by simpa using hfs))
    simp only [windowClamp, fullscreenSet]
    rw [if_neg hfs, if_neg h3k, gameFixup_fix _ _ _ (by simpa using hg)]
    simp

/-- C6 (refuted as stated). With the fullscreen flag set (flag constant 1, flags = 1), a
100x100 monitor and stored gameScale 1, the reconcile-on-load step leaves gameWidth = 320 above windowWidth = 100. -/
theorem reconcileOnLoad_small_monitor_counterexample :
    ¬ ((reconcileOnLoad sampleHeader 100 100
          { s_settings_default sampleHeader with flags := 1, gameScale := 1 }).1.gameWidth ≤
        (reconcileOnLoad sampleHeader 100 100
          { s_settings_default sampleHeader with flags := 1, gameScale := 1 }).1.windowWidth ∧
       (reconcileOnLoad sampleHeader 100 100
          { s_settings_default sampleHeader with flags := 1, gameScale := 1 }).1.gameHeight ≤
        (reconcileOnLoad sampleHeader 100 100
          { s_settings_default sampleHeader with flags := 1, gameScale := 1 }).1.windowHeight) := by
  decide

/-- C6 (amended). When 320*windowScale and 320*gameScale of the stored scales are
representable in 32 bits, and the fullscreen flag is clear or the monitor is at least
320x200, the settings produced by the reconcile-on-load step of read have
gameWidth <= windowWidth and gameHeight <= windowHeight. -/
theorem reconcileOnLoad_game_within_window (h : Header) (monitorWidth monitorHeight : Int)
    (s : XLSettings)
    (hws : -2147483648 ≤ 320 * s.windowScale ∧ 320 * s.windowScale ≤ 2147483647)
    (hgs : -2147483648 ≤ 320 * s.gameScale ∧ 320 * s.gameScale ≤ 2147483647)
    (hm : fullscreenSet h s = false ∨ (320 ≤ monitorWidth ∧ 200 ≤ monitorHeight)) :
    (reconcileOnLoad h monitorWidth monitorHeight s).1.gameWidth ≤
        (reconcileOnLoad h monitorWidth monitorHeight s).1.windowWidth ∧
      (reconcileOnLoad h monitorWidth monitorHeight s).1.gameHeight ≤
        (reconcileOnLoad h monitorWidth monitorHeight s).1.windowHeight :=
  reconcileOnLoad_within h monitorWidth monitorHeight s hws hgs hm

/-- C6 (amended), concrete instance: monitor 100x100, fullscreen clear, stored windowScale 1 and
gameScale 8. -/
theorem reconcileOnLoad_game_within_window_witness :
    (-2147483648 ≤ 320 * (1 : Int) ∧ 320 * (1 : Int) ≤ 2147483647) ∧
    (-2147483648 ≤ 320 * (8 : Int) ∧ 320 * (8 : Int) ≤ 2147483647) ∧
    (fullscreenSet sampleHeader
        { s_settings_default sampleHeader with windowScale := 1, gameScale := 8 } = false ∨
      ((320 : Int) ≤ 100 ∧ (200 : Int) ≤ 100)) ∧
    (reconcileOnLoad sampleHeader 100 100
        { s_settings_default sampleHeader with windowScale := 1, gameScale := 8 }).1.gameWidth ≤
      (reconcileOnLoad sampleHeader 100 100
        { s_settings_default sampleHeader with windowScale := 1, gameScale := 8 }).1.windowWidth :=
  ⟨by decide, by decide, Or.inl (by decide),
    (reconcileOnLoad_game_within_window sampleHeader 100 100
      { s_settings_default sampleHeader with windowScale := 1, gameScale := 8 }
      (by decide) (by decide) (Or.inl (by decide))).1⟩

/-- C3. With the fullscreen flag clear and a monitor of non-negative size,
chooseDefaultResolution sets windowScale to the largest integer s in 0..5 with
320*s <= monitorWidth and 240*s <= monitorHeight, sets gameScale equal to windowScale and
recomputes windowWidth = 320*windowScale, windowHeight = 240*windowScale,
gameWidth = 320*gameScale, gameHeight = 200*gameScale; for the monitor 1920x1080 the
result is windowScale = 4 and the window 1280x960. -/
theorem chooseDefaultResolution_windowed (h : Header) (monitorWidth monitorHeight : Int)
    (s : XLSettings) (hfs : fullscreenSet h s = false)
    (hw : 0 ≤ monitorWidth) (hh : 0 ≤ monitorHeight) :
    (0 ≤ (chooseDefaultResolution h monitorWidth monitorHeight s).windowScale ∧
      (chooseDefaultResolution h monitorWidth monitorHeight s).windowScale ≤ 5 ∧
      320 * (chooseDefaultResolution h monitorWidth monitorHeight s).windowScale ≤ monitorWidth ∧
      240 * (chooseDefaultResolution h monitorWidth monitorHeight s).windowScale ≤ monitorHeight ∧
      (∀ t : Int, 0 ≤ t → t ≤ 5 → 320 * t ≤ monitorWidth → 240 * t ≤ monitorHeight →
        t ≤ (chooseDefaultResolution h monitorWidth monitorHeight s).windowScale)) ∧
    (chooseDefaultResolution h monitorWidth monitorHeight s).gameScale =
      (chooseDefaultResolution h monitorWidth monitorHeight s).windowScale ∧
    (chooseDefaultResolution h monitorWidth monitorHeight s).windowWidth =
      320 * (chooseDefaultResolution h monitorWidth monitorHeight s).windowScale ∧
    (chooseDefaultResolution h monitorWidth monitorHeight s).windowHeight =
      240 * (chooseDefaultResolution h monitorWidth monitorHeight s).windowScale ∧
    (chooseDefaultResolution h monitorWidth monitorHeight s).gameWidth =
      320 * (chooseDefaultResolution h monitorWidth monitorHeight s).gameScale ∧
    (chooseDefaultResolution h monitorWidth monitorHeight s).gameHeight =
      200 * (chooseDefaultResolution h monitorWidth monitorHeight s).gameScale ∧
    (monitorWidth = 1920 → monitorHeight = 1080 →
      (chooseDefaultResolution h monitorWidth monitorHeight s).windowScale = 4 ∧
      (chooseDefaultResolution h monitorWidth monitorHeight s).windowWidth = 1280 ∧
      (chooseDefaultResolution h monitorWidth monitorHeight s).windowHeight = 960) := by
  obtain ⟨k, hk, hk0, hk5, hkw, hkh, hmax, _⟩ :=
    scaleSearch_spec 240 monitorWidth monitorHeight 5 hw hh
  have hr : chooseDefaultResolution h monitorWidth monitorHeight s =
      { s with
        windowScale := k, gameScale := k, windowWidth := 320 * k, windowHeight := 240 * k,
        gameWidth := 320 * k, gameHeight := 200 * k } := by
    have e1 : toS32 (320 * k) = 320 * k := toS32_eq_self _ (by omega) (by omega)
    have e2 : toS32 (240 * k) = 240 * k := toS32_eq_self _ (by omega) (by omega)
    have e3 : toS32 (200 * k) = 200 * k := toS32_eq_self _ (by omega) (by omega)
    simp only [chooseDefaultResolution, hfs, hk]
    simp [e1, e2, e3]
  rw [hr]
  simp only
  refine ⟨⟨hk0, by simpa using hk5, hkw, hkh, fun t _ ht5 htw hth => hmax t (by simpa using ht5) htw hth⟩,
    trivial, trivial, trivial, trivial, trivial, ?_⟩
  intro hmw hmh
  subst hmw hmh
  have h4 : k = 4 := by
    have h1 := hmax 4 (by norm_num) (by norm_num) (by norm_num)
    omega
  subst h4
  norm_num

/-- C3, concrete instance: monitor 1920x1080 with the default settings gives windowScale 4 and
the window 1280x960. -/
theorem chooseDefaultResolution_windowed_witness :
    fullscreenSet sampleHeader (s_settings_default sampleHeader) = false ∧
    (0 : Int) ≤ 1920 ∧ (0 : Int) ≤ 1080 ∧
    (chooseDefaultResolution sampleHeader 1920 1080
      (s_settings_default sampleHeader)).windowScale = 4 ∧
    (chooseDefaultResolution sampleHeader 1920 1080
      (s_settings_default sampleHeader)).windowWidth = 1280 ∧
    (chooseDefaultResolution sampleHeader 1920 1080
      (s_settings_default sampleHeader)).windowHeight = 960 :=
  ⟨by decide, by decide, by decide,
    (chooseDefaultResolution_windowed sampleHeader 1920 1080 (s_settings_default sampleHeader)
      (by decide) (by decide) (by decide)).2.2.2.2.2.2 rfl rfl⟩

/-- C4 (refuted as stated). On a 1920x1440 monitor with the fullscreen flag clear,
chooseDefaultResolution chooses windowScale = 5 although scale 6 (1920x1440) still fits
the monitor: the chosen scale is not the maximum integer within the monitor bounds. -/
theorem chooseDefaultResolution_not_maximum_counterexample :
    fullscreenSet sampleHeader (s_settings_default sampleHeader) = false ∧
    (chooseDefaultResolution sampleHeader 1920 1440
      (s_settings_default sampleHeader)).windowScale = 5 ∧
    ¬ (320 * ((chooseDefaultResolution sampleHeader 1920 1440
          (s_settings_default sampleHeader)).windowScale + 1) > 1920 ∨
       240 * ((chooseDefaultResolution sampleHeader 1920 1440
          (s_settings_default sampleHeader)).windowScale + 1) > 1440) := by
  decide

/-- C4 (amended). For every monitor of non-negative size with fullscreen off, the
windowScale chosen by chooseDefaultResolution is the maximum integer s in 0..5 such that
320*s <= monitorWidth and 240*s <= monitorHeight (that is, s = 5, or
320*(s+1) > monitorWidth, or 240*(s+1) > monitorHeight), and windowWidth = 320*s,
windowHeight = 240*s. -/
theorem chooseDefaultResolution_window_scale_capped (h : Header)
    (monitorWidth monitorHeight : Int) (s : XLSettings) (hfs : fullscreenSet h s = false)
    (hw : 0 ≤ monitorWidth) (hh : 0 ≤ monitorHeight) :
    0 ≤ (chooseDefaultResolution h monitorWidth monitorHeight s).windowScale ∧
    (chooseDefaultResolution h monitorWidth monitorHeight s).windowScale ≤ 5 ∧
    320 * (chooseDefaultResolution h monitorWidth monitorHeight s).windowScale ≤ monitorWidth ∧
    240 * (chooseDefaultResolution h monitorWidth monitorHeight s).windowScale ≤ monitorHeight ∧
    ((chooseDefaultResolution h monitorWidth monitorHeight s).windowScale = 5 ∨
      320 * ((chooseDefaultResolution h monitorWidth monitorHeight s).windowScale + 1) >
        monitorWidth ∨
      240 * ((chooseDefaultResolution h monitorWidth monitorHeight s).windowScale + 1) >
        monitorHeight) ∧
    (chooseDefaultResolution h monitorWidth monitorHeight s).windowWidth =
      320 * (chooseDefaultResolution h monitorWidth monitorHeight s).windowScale ∧
    (chooseDefaultResolution h monitorWidth monitorHeight s).windowHeight =
      240 * (chooseDefaultResolution h monitorWidth monitorHeight s).windowScale := by
  obtain ⟨k, hk, hk0, hk5, hkw, hkh, _, hsucc⟩ :=
    scaleSearch_spec 240 monitorWidth monitorHeight 5 hw hh
  have hr : chooseDefaultResolution h monitorWidth monitorHeight s =
      { s with
        windowScale := k, gameScale := k, windowWidth := 320 * k, windowHeight := 240 * k,
        gameWidth := 320 * k, gameHeight := 200 * k } := by
    have e1 : toS32 (320 * k) = 320 * k := toS32_eq_self _ (by omega) (by omega)
    have e2 : toS32 (240 * k) = 240 * k := toS32_eq_self _ (by omega) (by omega)
    have e3 : toS32 (200 * k) = 200 * k := toS32_eq_self _ (by omega) (by omega)
    simp only [chooseDefaultResolution, hfs, hk]
    simp [e1, e2, e3]
  rw [hr]
  simp only
  exact ⟨hk0, by simpa using hk5, hkw, hkh, by simpa using hsucc, trivial, trivial⟩

/-- C4 (amended), concrete instance: monitor 1920x1440 with the default settings. -/
theorem chooseDefaultResolution_window_scale_capped_witness :
    fullscreenSet sampleHeader (s_settings_default sampleHeader) = false ∧
    (0 : Int) ≤ 1920 ∧ (0 : Int) ≤ 1440 ∧
    (chooseDefaultResolution sampleHeader 1920 1440
      (s_settings_default sampleHeader)).windowScale ≤ 5 :=
  ⟨by decide, by decide, by decide,
    (chooseDefaultResolution_window_scale_capped sampleHeader 1920 1440
      (s_settings_default sampleHeader) (by decide) (by decide) (by decide)).2.1⟩

/-- C5. With the fullscreen flag set and a monitor of non-negative size,
chooseDefaultResolution sets windowWidth = monitorWidth and windowHeight = monitorHeight,
sets gameScale to the largest integer s in 0..5 with 320*s <= monitorWidth and
200*s <= monitorHeight, sets gameWidth = 320*gameScale and gameHeight = 200*gameScale, and
leaves windowScale unchanged. -/
theorem chooseDefaultResolution_fullscreen (h : Header) (monitorWidth monitorHeight : Int)
    (s : XLSettings) (hfs : fullscreenSet h s = true)
    (hw : 0 ≤ monitorWidth) (hh : 0 ≤ monitorHeight) :
    (chooseDefaultResolution h monitorWidth monitorHeight s).windowWidth = monitorWidth ∧
    (chooseDefaultResolution h monitorWidth monitorHeight s).windowHeight = monitorHeight ∧
    (0 ≤ (chooseDefaultResolution h monitorWidth monitorHeight s).gameScale ∧
      (chooseDefaultResolution h monitorWidth monitorHeight s).gameScale ≤ 5 ∧
      320 * (chooseDefaultResolution h monitorWidth monitorHeight s).gameScale ≤ monitorWidth ∧
      200 * (chooseDefaultResolution h monitorWidth monitorHeight s).gameScale ≤ monitorHeight ∧
      (∀ t : Int, 0 ≤ t → t ≤ 5 → 320 * t ≤ monitorWidth → 200 * t ≤ monitorHeight →
        t ≤ (chooseDefaultResolution h monitorWidth monitorHeight s).gameScale)) ∧
    (chooseDefaultResolution h monitorWidth monitorHeight s).gameWidth =
      320 * (chooseDefaultResolution h monitorWidth monitorHeight s).gameScale ∧
    (chooseDefaultResolution h monitorWidth monitorHeight s).gameHeight =
      200 * (chooseDefaultResolution h monitorWidth monitorHeight s).gameScale ∧
    (chooseDefaultResolution h monitorWidth monitorHeight s).windowScale = s.windowScale := by
  obtain ⟨k, hk, hk0, hk5, hkw, hkh, hmax, _⟩ :=
    scaleSearch_spec 200 monitorWidth monitorHeight 5 hw hh
  have hr : chooseDefaultResolution h monitorWidth monitorHeight s =
      { s with
        gameScale := k, windowWidth := monitorWidth, windowHeight := monitorHeight,
        gameWidth := 320 * k, gameHeight := 200 * k } := by
    have e1 : toS32 (320 * k) = 320 * k := toS32_eq_self _ (by omega) (by omega)
    have e2 : toS32 (240 * k) = 240 * k := toS32_eq_self _ (by omega) (by omega)
    have e3 : toS32 (200 * k) = 200 * k := toS32_eq_self _ (by omega) (by omega)
    simp only [chooseDefaultResolution, hfs, hk]
    simp [e1, e2, e3]
  rw [hr]
  simp only
  exact ⟨trivial, trivial,
    ⟨hk0, by simpa using hk5, hkw, hkh, fun t _ ht5 htw hth => hmax t (by simpa using ht5) htw hth⟩,
    trivial, trivial, trivial⟩

/-- C5, concrete instance: monitor 1366x768 with the fullscreen flag set. -/
theorem chooseDefaultResolution_fullscreen_witness :
    fullscreenSet sampleHeader { s_settings_default sampleHeader with flags := 13 } = true ∧
    (0 : Int) ≤ 1366 ∧ (0 : Int) ≤ 768 ∧
    (chooseDefaultResolution sampleHeader 1366 768
      { s_settings_default sampleHeader with flags := 13 }).windowWidth = 1366 :=
  ⟨by decide, by decide, by decide,
    (chooseDefaultResolution_fullscreen sampleHeader 1366 768
      { s_settings_default sampleHeader with flags := 13 }
      (by decide) (by decide) (by decide)).1⟩

/-! ## Key mappings: `assignKeyMappings` and the join of `write` -/

theorem keyTokens_ne_nil (value : List Char) : keyTokens value ≠ [] := by
  cases value with
  | nil => simp [keyTokens]
  | cons c rest =>
    rw [keyTokens]
    split_ifs
    · simp
    · simp
    · split <;> simp

theorem prependFirst_nil (ts : List (List Char)) (h : ts ≠ []) : prependFirst [] ts = ts := by
  cases ts with
  | nil => exact absurd rfl h
  | cons t r => simp [prependFirst]

theorem assignLoop_keyTokens (value : List Char) (keys : List (List Char)) (n : Nat)
    (keyStr : List Char) :
    (assignLoop value (keys, n, keyStr)).1.set (assignLoop value (keys, n, keyStr)).2.1
        (assignLoop value (keys, n, keyStr)).2.2 =
      storeTokens keys n (prependFirst keyStr (keyTokens value)) ∧
    (assignLoop value (keys, n, keyStr)).2.1 + 1 = n + (keyTokens value).length := by
  induction value generalizing keys n keyStr with
  | nil => simp [assignLoop, keyTokens, prependFirst, storeTokens]
  | cons c rest ih =>
    rw [assignLoop, keyTokens]
    by_cases h1 : c = '\r' ∨ c = '\n' ∨ c = NUL
    · rw [if_pos h1, if_pos h1]
      simp [prependFirst, storeTokens]
    · rw [if_neg h1, if_neg h1]
      by_cases h2 : c = ',' ∧ rest.headD NUL ≠ ','
      · rw [if_pos h2, if_pos h2]
        obtain ⟨ih1, ih2⟩ := ih (keys.set n keyStr) (n + 1) []
        rw [ih1, ih2, prependFirst_nil _ (keyTokens_ne_nil rest)]
        simp only [prependFirst, storeTokens, List.append_nil, List.length_cons, true_and]
        omega
      · rw [if_neg h2, if_neg h2]
        obtain ⟨ih1, ih2⟩ := ih keys n (keyStr ++ [c])
        rw [ih1, ih2]
        cases hk : keyTokens rest with
        | nil => exact absurd hk (keyTokens_ne_nil rest)
        | cons t ts => simp [prependFirst]

theorem assignKeyMappings_eq (action : ActionMapping) (value : List Char) :
    assignKeyMappings action value =
      { action with
        keys := storeTokens action.keys 0 (keyTokens value)
        mappingCount := (keyTokens value).length } := by
  obtain ⟨h1, h2⟩ := assignLoop_keyTokens value action.keys 0 []
  rw [prependFirst_nil _ (keyTokens_ne_nil value)] at h1
  simp only [assignKeyMappings]
  rw [h1, h2]
  simp

theorem storeTokens_eq (ts : List (List Char)) (keys : List (List Char)) (n : Nat)
    (hcap : n + ts.length ≤ keys.length) :
    storeTokens keys n ts = keys.take n ++ ts ++ keys.drop (n + ts.length) := by
  induction ts generalizing keys n with
  | nil => simp [storeTokens]
  | cons t r ih =>
    simp only [List.length_cons] at hcap
    rw [storeTokens, ih (keys.set n t) (n + 1) (by simp; omega)]
    have hn : n < keys.length := by omega
    rw [List.set_eq_take_append_cons_drop, if_pos hn]
    have h1 : List.take (n + 1) (List.take n keys ++ t :: List.drop (n + 1) keys) =
        List.take n keys ++ [t] := by
      rw [List.take_append_eq_append_take]
      simp [List.length_take, Nat.min_eq_left (Nat.le_of_lt hn)]
    have h2 : List.drop (n + 1 + r.length) (List.take n keys ++ t :: List.drop (n + 1) keys) =
        List.drop (n + (r.length + 1)) keys := by
      rw [List.drop_append_eq_append_drop]
      simp [List.length_take, Nat.min_eq_left (Nat.le_of_lt hn)]
      have : n + 1 + r.length - n = r.length + 1 := by omega
      rw [List.drop_eq_nil_of_le (by simp; omega), this]
      simp [List.drop_drop]
      congr 1; omega
    rw [h1, h2]
    simp

theorem scannedPart_head (rest : List Char) :
    (scannedPart rest).head? = some ',' ↔ rest.headD NUL = ',' := by
  cases rest with
  | nil => simp [scannedPart, NUL]
  | cons d r =>
    simp only [scannedPart, List.headD_cons]
    by_cases hd : d = ','
    · subst hd
      simp [List.takeWhile, NUL]
    · by_cases ht : (!(d == '\r' || d == '\n' || d == NUL)) = true
      · simp [List.takeWhile, ht, hd]
      · simp only [Bool.not_eq_true] at ht
        simp [List.takeWhile, ht, hd]

theorem keyTokens_length (value : List Char) :
    (keyTokens value).length = 1 + separatorCount (scannedPart value) := by
  induction value with
  | nil => simp [keyTokens, scannedPart, separatorCount]
  | cons c rest ih =>
    rw [keyTokens]
    by_cases h1 : c = '\r' ∨ c = '\n' ∨ c = NUL
    · rw [if_pos h1]
      have : (!(c == '\r' || c == '\n' || c == NUL)) = false := by
        rcases h1 with h | h | h <;> simp [h]
      simp [scannedPart, List.takeWhile, this, separatorCount]
    · rw [if_neg h1]
      have hnt : (!(c == '\r' || c == '\n' || c == NUL)) = true := by
        simp only [not_or] at h1
        simp [h1.1, h1.2.1, h1.2.2]
      have hsc : scannedPart (c :: rest) = c :: scannedPart rest := by
        simp only [scannedPart] at *
        rw [List.takeWhile, hnt]
      rw [hsc, separatorCount]
      by_cases h2 : c = ',' ∧ rest.headD NUL ≠ ','
      · rw [if_pos h2]
        have h3 : c = ',' ∧ (scannedPart rest).head? ≠ some ',' :=
          ⟨h2.1, fun hh => h2.2 ((scannedPart_head rest).1 hh)⟩
        rw [if_pos h3, List.length_cons, ih]
        omega
      · rw [if_neg h2]
        have h3 : ¬ (c = ',' ∧ (scannedPart rest).head? ≠ some ',') := by
          rintro ⟨hc, hh⟩
          exact h2 ⟨hc, fun hh2 => hh ((scannedPart_head rest).2 hh2)⟩
        rw [if_neg h3]
        cases hk : keyTokens rest with
        | nil => exact absurd hk (keyTokens_ne_nil rest)
        | cons t ts =>
          rw [hk] at ih
          simp only [List.length_cons] at ih ⊢
          omega

theorem writeKeysLoop_eq (action : ActionMapping) (n m : Nat) (str : List Char)
    (hm : m + n = action.mappingCount) (hcap : action.mappingCount ≤ action.keys.length) :
    writeKeysLoop action n m str = str ++ joinComma ((action.keys.drop m).take n) := by
  induction n generalizing m str with
  | zero => simp [writeKeysLoop, joinComma]
  | succ n ih =>
    have hlt : m < action.keys.length := by omega
    have hd : action.keys.drop m = action.keys[m] :: action.keys.drop (m + 1) :=
      List.drop_eq_getElem_cons hlt
    have hg : action.keys.getD m [] = action.keys[m] := by
      simp [List.getD, List.getElem?_eq_getElem hlt]
    simp only [writeKeysLoop]
    rw [ih (m + 1) _ (by omega), hd, List.take_succ_cons, hg]
    cases n with
    | zero =>
      have : ¬ (m + 1 < action.mappingCount) := by omega
      simp [this, joinComma]
    | succ k =>
      have hlt2 : m + 1 < action.keys.length := by omega
      have hd2 : action.keys.drop (m + 1) =
          action.keys[m + 1] :: action.keys.drop (m + 1 + 1) :=
        List.drop_eq_getElem_cons hlt2
      have : m + 1 < action.mappingCount := by omega
      rw [hd2, List.take_succ_cons]
      simp [this, joinComma]

theorem writeKeys_eq_joinComma (action : ActionMapping)
    (hcap : action.mappingCount ≤ action.keys.length) :
    writeKeys action = joinComma (action.keys.take action.mappingCount) := by
  rw [writeKeys, writeKeysLoop_eq action _ 0 [] (by simp) hcap]
  simp

theorem keyTokens_append_clean (t rest : List Char) (ht : ∀ c ∈ t, isKeyChar c = true) :
    keyTokens (t ++ rest) = prependFirst t (keyTokens rest) := by
  induction t with
  | nil =>
    cases hk : keyTokens rest with
    | nil => exact absurd hk (keyTokens_ne_nil rest)
    | cons a b => simp [prependFirst, hk]
  | cons c r ih =>
    have hc : isKeyChar c = true := ht c (by simp)
    simp only [isKeyChar, Bool.not_eq_true', Bool.or_eq_false_iff, beq_eq_false_iff_ne] at hc
    have h1 : ¬ (c = '\r' ∨ c = '\n' ∨ c = NUL) := by
      rintro (h | h | h)
      · exact hc.1.1.2 h
      · exact hc.1.2 h
      · exact hc.2 h
    have h2 : ¬ (c = ',' ∧ (r ++ rest).headD NUL ≠ ',') := fun h => hc.1.1.1 h.1
    rw [List.cons_append, keyTokens, if_neg h1, if_neg h2,
      ih (fun d hd => ht d (List.mem_cons_of_mem _ hd))]
    cases hk : keyTokens rest with
    | nil => exact absurd hk (keyTokens_ne_nil rest)
    | cons a b => simp [prependFirst]

theorem headD_clean (t : List Char) (ht : ∀ c ∈ t, isKeyChar c = true) :
    t.headD NUL ≠ ',' := by
  cases t with
  | nil => simp [NUL]
  | cons c r =>
    have hc : isKeyChar c = true := ht c (by simp)
    simp only [isKeyChar, Bool.not_eq_true', Bool.or_eq_false_iff, beq_eq_false_iff_ne] at hc
    simpa using hc.1.1.1

theorem keyTokens_joinComma (ts : List (List Char)) (hne : ts ≠ [])
    (hclean : ∀ t ∈ ts, ∀ c ∈ t, isKeyChar c = true)
    (hinner : ∀ t ∈ ts.tail.dropLast, t ≠ []) :
    keyTokens (joinComma ts) = ts := by
  induction ts with
  | nil => exact absurd rfl hne
  | cons t r ih =>
    cases r with
    | nil =>
      have := keyTokens_append_clean t [] (hclean t (by simp))
      simpa [joinComma, keyTokens, prependFirst] using this
    | cons t2 r2 =>
      have hih := ih (by simp) (fun u hu => hclean u (List.mem_cons_of_mem _ hu))
        (fun u hu => hinner u (by
          cases r2 with
          | nil => simp at hu
          | cons t3 r3 =>
            simp only [List.tail_cons, List.dropLast_cons₂] at hu ⊢
            exact List.mem_cons_of_mem _ hu))
      have hhead : (joinComma (t2 :: r2)).headD NUL ≠ ',' := by
        cases r2 with
        | nil => simpa [joinComma] using headD_clean t2 (hclean t2 (by simp))
        | cons t3 r3 =>
          have ht2 : t2 ≠ [] := hinner t2 (by simp)
          cases t2 with
          | nil => exact absurd rfl ht2
          | cons c cs =>
            have := headD_clean (c :: cs) (hclean (c :: cs) (by simp))
            simpa [joinComma] using this
      have hnt : ¬ ((',' : Char) = '\r' ∨ (',' : Char) = '\n' ∨ (',' : Char) = NUL) := by
        simp [NUL]
      rw [joinComma, keyTokens_append_clean t _ (hclean t (by simp)), keyTokens, if_neg hnt,
        if_pos ⟨rfl, hhead⟩, hih]
      simp [prependFirst]

theorem assignKeyMappings_keys_take (action : ActionMapping) (value : List Char)
    (hcap : (keyTokens value).length ≤ action.keys.length) :
    (assignKeyMappings action value).mappingCount = (keyTokens value).length ∧
    (assignKeyMappings action value).keys =
      keyTokens value ++ action.keys.drop (keyTokens value).length ∧
    (assignKeyMappings action value).keys.take (assignKeyMappings action value).mappingCount =
      keyTokens value := by
  rw [assignKeyMappings_eq]
  simp only
  rw [storeTokens_eq _ _ 0 (by simpa using hcap)]
  simp

theorem keyTokens_trailing_comma (pre : List Char)
    (hpre : ∀ c ∈ pre, c ≠ '\r' ∧ c ≠ '\n' ∧ c ≠ NUL) :
    ∃ front, front ≠ [] ∧ keyTokens (pre ++ [',']) = front ++ [[]] := by
  induction pre with
  | nil =>
    refine ⟨[[]], by simp, ?_⟩
    simp [keyTokens, NUL]
  | cons c r ih =>
    obtain ⟨front, hf, hk⟩ := ih (fun d hd => hpre d (List.mem_cons_of_mem _ hd))
    have hc := hpre c (by simp)
    have h1 : ¬ (c = '\r' ∨ c = '\n' ∨ c = NUL) := by
      rintro (h | h | h)
      · exact hc.1 h
      · exact hc.2.1 h
      · exact hc.2.2 h
    rw [List.cons_append, keyTokens, if_neg h1]
    by_cases h2 : c = ',' ∧ (r ++ [',']).headD NUL ≠ ','
    · rw [if_pos h2, hk]
      exact ⟨[] :: front, by simp, by simp⟩
    · rw [if_neg h2, hk]
      cases front with
      | nil => exact absurd rfl hf
      | cons f0 fr => exact ⟨(c :: f0) :: fr, by simp, by simp⟩

theorem prependFirst_length_le (keyStr : List Char) (ts : List (List Char)) :
    ∃ t ∈ prependFirst keyStr ts, keyStr.length ≤ t.length := by
  cases ts with
  | nil => exact ⟨keyStr, by simp [prependFirst], le_refl _⟩
  | cons t r => exact ⟨keyStr ++ t, by simp [prependFirst], by simp⟩

/-- Within the bounds of `keys` the checked loop computes the state of `assignLoop`, and
the final store of `assignKeyMappings` is in bounds as well. -/
theorem assignLoopChecked_eq (value : List Char) (keys : List (List Char)) (n : Nat)
    (keyStr : List Char)
    (hcap : n + (keyTokens value).length ≤ keys.length)
    (hlen : ∀ t ∈ prependFirst keyStr (keyTokens value), t.length < 256) :
    assignLoopChecked value (keys, n, keyStr) = some (assignLoop value (keys, n, keyStr)) ∧
    (assignLoop value (keys, n, keyStr)).2.1 < (assignLoop value (keys, n, keyStr)).1.length ∧
    (assignLoop value (keys, n, keyStr)).2.2.length < 256 := by
  have hpos : 0 < (keyTokens value).length :=
    List.length_pos.mpr (keyTokens_ne_nil value)
  have hn : n < keys.length := by omega
  have hk : keyStr.length < 256 := by
    obtain ⟨t, ht, hle⟩ := prependFirst_length_le keyStr (keyTokens value)
    have := hlen t ht
    omega
  induction value generalizing keys n keyStr with
  | nil => exact ⟨rfl, hn, hk⟩
  | cons c rest ih =>
    rw [assignLoopChecked, assignLoop]
    by_cases h1 : c = '\r' ∨ c = '\n' ∨ c = NUL
    · rw [if_pos h1, if_pos h1]
      exact ⟨rfl, hn, hk⟩
    · rw [if_neg h1, if_neg h1, if_pos ⟨hn, hk⟩]
      rw [keyTokens, if_neg h1] at hcap hlen
      by_cases h2 : c = ',' ∧ rest.headD NUL ≠ ','
      · rw [if_pos h2, if_pos h2]
        rw [if_pos h2] at hcap hlen
        have hpos2 : 0 < (keyTokens rest).length :=
          List.length_pos.mpr (keyTokens_ne_nil rest)
        simp only [List.length_cons] at hcap
        have hlen2 : ∀ t ∈ prependFirst [] (keyTokens rest), t.length < 256 := by
          intro t ht
          rw [prependFirst_nil _ (keyTokens_ne_nil rest)] at ht
          exact hlen t (by simp [prependFirst, ht])
        exact ih (keys.set n keyStr) (n + 1) [] (by simp; omega) hlen2 hpos2
          (by simp; omega) (by simp)
      · rw [if_neg h2, if_neg h2]
        rw [if_neg h2] at hcap hlen
        have hpos2 : 0 < (keyTokens rest).length :=
          List.length_pos.mpr (keyTokens_ne_nil rest)
        cases hkt : keyTokens rest with
        | nil => exact absurd hkt (keyTokens_ne_nil rest)
        | cons t ts =>
          rw [hkt] at hcap hlen
          simp only [List.length_cons] at hcap
          have hlen2 : ∀ u ∈ prependFirst (keyStr ++ [c]) (keyTokens rest), u.length < 256 := by
            intro u hu
            rw [hkt] at hu
            exact hlen u (by simpa [prependFirst] using hu)
          have hk2 : (keyStr ++ [c]).length < 256 := by
            have := hlen2 ((keyStr ++ [c]) ++ t) (by rw [hkt]; simp [prependFirst])
            simp at this ⊢
            omega
          exact ih keys n (keyStr ++ [c]) (by rw [hkt]; simp; omega) hlen2 hpos2 hn hk2

/-- When the tokens of the input fit the slots of the action (their number is at most the
number of slots, each is shorter than the 256 bytes of a slot), `assignKeyMappings` writes
inside `keys` and its result is the action given by `assignKeyMappings`. -/
theorem assignKeyMappingsChecked_eq_some (action : ActionMapping) (value : List Char)
    (hcap : (keyTokens value).length ≤ action.keys.length)
    (hlen : ∀ t ∈ keyTokens value, t.length < 256) :
    assignKeyMappingsChecked action value = some (assignKeyMappings action value) := by
  obtain ⟨h1, h2, h3⟩ := assignLoopChecked_eq value action.keys 0 []
    (by simpa using hcap)
    (by rw [prependFirst_nil _ (keyTokens_ne_nil value)]; exact hlen)
  simp only [assignKeyMappingsChecked, assignKeyMappings]
  rw [h1]
  simp only
  rw [if_pos ⟨h2, h3⟩]

theorem assignLoopChecked_some (value : List Char) (keys : List (List Char)) (n : Nat)
    (keyStr : List Char) (r : List (List Char) × Nat × List Char)
    (hr : assignLoopChecked value (keys, n, keyStr) = some r)
    (hfin : r.2.1 < r.1.length ∧ r.2.2.length < 256) :
    n + (keyTokens value).length ≤ keys.length ∧
    ∀ t ∈ prependFirst keyStr (keyTokens value), t.length < 256 := by
  induction value generalizing keys n keyStr with
  | nil =>
    simp only [assignLoopChecked, Option.some.injEq] at hr
    subst hr
    simp only at hfin
    refine ⟨by simp [keyTokens]; omega, ?_⟩
    intro t ht
    simp [keyTokens, prependFirst] at ht
    rw [ht]; exact hfin.2
  | cons c rest ih =>
    rw [assignLoopChecked] at hr
    by_cases h1 : c = '\r' ∨ c = '\n' ∨ c = NUL
    · rw [if_pos h1] at hr
      simp only [Option.some.injEq] at hr
      subst hr
      simp only at hfin
      rw [keyTokens, if_pos h1]
      refine ⟨by simp; omega, ?_⟩
      intro t ht
      simp [prependFirst] at ht
      rw [ht]; exact hfin.2
    · rw [if_neg h1] at hr
      by_cases hb : n < keys.length ∧ keyStr.length < 256
      · rw [if_pos hb] at hr
        rw [keyTokens, if_neg h1]
        by_cases h2 : c = ',' ∧ rest.headD NUL ≠ ','
        · rw [if_pos h2] at hr
          rw [if_pos h2]
          obtain ⟨i1, i2⟩ := ih (keys.set n keyStr) (n + 1) [] hr
          rw [List.length_set] at i1
          rw [prependFirst_nil _ (keyTokens_ne_nil rest)] at i2
          refine ⟨by simp; omega, ?_⟩
          intro t ht
          simp only [prependFirst, List.append_nil, List.mem_cons] at ht
          rcases ht with ht | ht
          · rw [ht]; exact hb.2
          · exact i2 t ht
        · rw [if_neg h2] at hr
          rw [if_neg h2]
          obtain ⟨i1, i2⟩ := ih keys n (keyStr ++ [c]) hr
          cases hkt : keyTokens rest with
          | nil => exact absurd hkt (keyTokens_ne_nil rest)
          | cons t ts =>
            rw [hkt] at i1 i2
            refine ⟨by simpa using i1, ?_⟩
            intro u hu
            exact i2 u (by simpa [prependFirst] using hu)
      · rw [if_neg hb] at hr
        exact absurd hr (by simp)

theorem assignKeyMappingsChecked_isSome (action : ActionMapping) (value : List Char)
    (hs : (assignKeyMappingsChecked action value).isSome = true) :
    (keyTokens value).length ≤ action.keys.length ∧ ∀ t ∈ keyTokens value, t.length < 256 := by
  unfold assignKeyMappingsChecked at hs
  cases hr : assignLoopChecked value (action.keys, 0, []) with
  | none => rw [hr] at hs; simp at hs
  | some r =>
    rw [hr] at hs
    obtain ⟨k, n, ks⟩ := r
    simp only at hs
    by_cases hfin : n < k.length ∧ ks.length < 256
    · obtain ⟨i1, i2⟩ := assignLoopChecked_some value action.keys 0 [] (k, n, ks) hr hfin
      rw [prependFirst_nil _ (keyTokens_ne_nil value)] at i2
      exact ⟨by simpa using i1, i2⟩
    · rw [if_neg hfin] at hs
      simp at hs

/-- `assignKeyMappings` writes inside `keys` exactly when the tokens of the input fit the
slots. -/
theorem assignKeyMappingsChecked_isSome_iff (action : ActionMapping) (value : List Char) :
    (assignKeyMappingsChecked action value).isSome = true ↔
      ((keyTokens value).length ≤ action.keys.length ∧ ∀ t ∈ keyTokens value, t.length < 256) :=
  ⟨assignKeyMappingsChecked_isSome action value,
   fun hc => by rw [assignKeyMappingsChecked_eq_some action value hc.1 hc.2]; rfl⟩

theorem writeKeysLoop_length_le (action : ActionMapping) (n m : Nat) (str : List Char) :
    str.length ≤ (writeKeysLoop action n m str).length := by
  induction n generalizing m str with
  | zero => simp [writeKeysLoop]
  | succ n ih =>
    simp only [writeKeysLoop]
    refine le_trans ?_ (ih _ _)
    split_ifs <;> simp

theorem writeKeysLoopChecked_eq (action : ActionMapping) (n m : Nat) (str : List Char)
    (hm : m + n = action.mappingCount) (hcap : action.mappingCount ≤ action.keys.length)
    (hlen : (writeKeysLoop action n m str).length < 512) :
    writeKeysLoopChecked action n m str = some (writeKeysLoop action n m str) := by
  induction n generalizing m str with
  | zero => rfl
  | succ n ih =>
    have hlt : m < action.keys.length := by omega
    have hg : action.keys.getD m [] = action.keys[m] := by
      simp [List.getD, List.getElem?_eq_getElem hlt]
    simp only [writeKeysLoop, hg] at hlen ⊢
    simp only [writeKeysLoopChecked, List.getElem?_eq_getElem hlt]
    by_cases hsep : m + 1 < action.mappingCount
    · rw [if_pos hsep] at hlen ⊢
      have h2 := writeKeysLoop_length_le action n (m + 1) (str ++ action.keys[m] ++ [','])
      have h3 : (str ++ action.keys[m]).length < 512 := by
        simp only [List.length_append, List.length_singleton] at h2 ⊢
        omega
      rw [if_pos h3, if_pos hsep, if_pos (by omega)]
      exact ih (m + 1) _ (by omega) hlen
    · rw [if_neg hsep] at hlen ⊢
      have h2 := writeKeysLoop_length_le action n (m + 1) (str ++ action.keys[m])
      rw [if_pos (by omega), if_neg hsep]
      exact ih (m + 1) _ (by omega) hlen

/-- When the keys of the action lie in its slots and the joined text with its terminating
NUL fits `char str[512]`, the loop of `write` stays inside `str` and builds the text given
by `writeKeys`. -/
theorem writeKeysChecked_eq_some (action : ActionMapping)
    (hcap : action.mappingCount ≤ action.keys.length)
    (hlen : (writeKeys action).length < 512) :
    writeKeysChecked action = some (writeKeys action) :=
  writeKeysLoopChecked_eq action action.mappingCount 0 [] (by simp) hcap hlen

/-- C7 (refuted as stated). The tokens "a", "", "b" contain no comma, carriage return,
line feed or NUL and fit a mapping of four slots, yet parsing their join "a,,b" gives the
two tokens "a," and "b": an empty token between two others is not preserved. -/
theorem key_list_round_trip_counterexample :
    (∀ t ∈ ["a".toList, [], "b".toList], ∀ c ∈ t, isKeyChar c = true) ∧
    writeKeys { action := "Jump".toList, keys := ["a".toList, [], "b".toList, []],
                mappingCount := 3 } = "a,,b".toList ∧
    (assignKeyMappings (zeroAction sampleHeader) "a,,b".toList).mappingCount = 2 ∧
    (assignKeyMappings (zeroAction sampleHeader) "a,,b".toList).keys.take 2 =
      ["a,".toList, "b".toList] ∧
    (assignKeyMappings (zeroAction sampleHeader) "a,,b".toList).keys.take
        (assignKeyMappings (zeroAction sampleHeader) "a,,b".toList).mappingCount ≠
      ["a".toList, [], "b".toList] := by
  decide

/-- C7 (amended). Key-list round trip: for every non-empty sequence of tokens that fits the
mapping capacity (no more tokens than slots, each token shorter than the 256 bytes of a
slot) and whose join is shorter than the 512 bytes of the buffer str of write, whose
tokens contain no comma, carriage return, line feed or NUL, and in which no token other
than the first and the last is empty: write builds the join (tokens separated by a single
comma) inside str, and assignKeyMappings, writing inside keys, parses it to exactly the
same sequence, with mappingCount equal to its length. -/
theorem key_list_round_trip (action src : ActionMapping) (tokens : List (List Char))
    (hne : tokens ≠ [])
    (hcount : src.mappingCount = tokens.length)
    (hkeys : src.keys.take src.mappingCount = tokens)
    (hcap : tokens.length ≤ action.keys.length)
    (hslot : ∀ t ∈ tokens, t.length < 256)
    (hstr : (joinComma tokens).length < 512)
    (hclean : ∀ t ∈ tokens, ∀ c ∈ t, isKeyChar c = true)
    (hinner : ∀ t ∈ tokens.tail.dropLast, t ≠ []) :
    writeKeysChecked src = some (joinComma tokens) ∧
    writeKeys src = joinComma tokens ∧
    assignKeyMappingsChecked action (writeKeys src) =
      some (assignKeyMappings action (writeKeys src)) ∧
    (assignKeyMappings action (writeKeys src)).mappingCount = tokens.length ∧
    (assignKeyMappings action (writeKeys src)).keys.take
        (assignKeyMappings action (writeKeys src)).mappingCount = tokens := by
  have hlen : src.mappingCount ≤ src.keys.length := by
    have h := congrArg List.length hkeys
    rw [List.length_take] at h
    omega
  have hj : writeKeys src = joinComma tokens := by
    rw [writeKeys_eq_joinComma src hlen, hkeys]
  have hw : keyTokens (writeKeys src) = tokens := by
    rw [hj]
    exact keyTokens_joinComma tokens hne hclean hinner
  obtain ⟨h1, _, h3⟩ := assignKeyMappings_keys_take action (writeKeys src) (by rw [hw]; exact hcap)
  rw [hw] at h1 h3
  refine ⟨?_, hj, ?_, h1, h3⟩
  · rw [← hj]
    exact writeKeysChecked_eq_some src hlen (by rw [hj]; exact hstr)
  · exact assignKeyMappingsChecked_eq_some action (writeKeys src) (by rw [hw]; exact hcap)
      (by rw [hw]; exact hslot)

/-- C7 (amended), concrete instance: the tokens Up, Down, Left are joined to "Up,Down,Left"
and parsed back to the same three tokens. -/
theorem key_list_round_trip_witness :
    writeKeysChecked { action := "Move".toList,
                       keys := ["Up".toList, "Down".toList, "Left".toList, []],
                       mappingCount := 3 } = some "Up,Down,Left".toList ∧
    (assignKeyMappings (zeroAction sampleHeader)
      (writeKeys { action := "Move".toList,
                   keys := ["Up".toList, "Down".toList, "Left".toList, []],
                   mappingCount := 3 })).mappingCount = 3 ∧
    (assignKeyMappings (zeroAction sampleHeader)
      (writeKeys { action := "Move".toList,
                   keys := ["Up".toList, "Down".toList, "Left".toList, []],
                   mappingCount := 3 })).keys.take
      (assignKeyMappings (zeroAction sampleHeader)
        (writeKeys { action := "Move".toList,
                     keys := ["Up".toList, "Down".toList, "Left".toList, []],
                     mappingCount := 3 })).mappingCount =
      ["Up".toList, "Down".toList, "Left".toList] :=
  ⟨(key_list_round_trip (zeroAction sampleHeader)
      { action := "Move".toList, keys := ["Up".toList, "Down".toList, "Left".toList, []],
        mappingCount := 3 }
      ["Up".toList, "Down".toList, "Left".toList]
      (by decide) (by decide) (by decide) (by decide) (by decide) (by decide) (by decide)
      (by decide)).1,
   (key_list_round_trip (zeroAction sampleHeader)
      { action := "Move".toList, keys := ["Up".toList, "Down".toList, "Left".toList, []],
        mappingCount := 3 }
      ["Up".toList, "Down".toList, "Left".toList]
      (by decide) (by decide) (by decide) (by decide) (by decide) (by decide) (by decide)
      (by decide)).2.2.2⟩

/-- C8 (refuted as stated). Parsing "a,,b" does not yield the single token "a,,b": the
first comma is stored in the current token, the second one ends it, and the result is the
two tokens "a," and "b" with mappingCount = 2. -/
theorem doubled_comma_counterexample :
    (assignKeyMappings (zeroAction sampleHeader) "a,,b".toList).mappingCount ≠ 1 ∧
    (assignKeyMappings (zeroAction sampleHeader) "a,,b".toList).keys.take 1 ≠
      ["a,,b".toList] ∧
    (assignKeyMappings (zeroAction sampleHeader) "a,,b".toList).mappingCount = 2 ∧
    (assignKeyMappings (zeroAction sampleHeader) "a,,b".toList).keys.take 2 =
      ["a,".toList, "b".toList] := by
  decide

theorem comma_not_terminator :
    ¬ ((',' : Char) = '\r' ∨ (',' : Char) = '\n' ∨ (',' : Char) = NUL) := by
  simp [NUL]

theorem keyTokens_commas (k : Nat) (rest : List Char) (hrest : rest.headD NUL ≠ ',') :
    keyTokens (List.replicate (k + 1) ',' ++ rest) = List.replicate k ',' :: keyTokens rest := by
  induction k with
  | zero =>
    show keyTokens (',' :: rest) = [] :: keyTokens rest
    rw [keyTokens, if_neg comma_not_terminator, if_pos ⟨rfl, hrest⟩]
  | succ k ih =>
    have e : List.replicate (k + 1 + 1) ',' ++ rest =
        ',' :: (List.replicate (k + 1) ',' ++ rest) := by
      rw [List.replicate_succ, List.cons_append]
    have hh : ¬ ((',' : Char) = ',' ∧ (List.replicate (k + 1) ',' ++ rest).headD NUL ≠ ',') := by
      rw [List.replicate_succ]
      simp
    rw [e, keyTokens, if_neg comma_not_terminator, if_neg hh, ih]
    simp [List.replicate_succ]

theorem assignLoopChecked_comma_comma (rest : List Char) (keys : List (List Char)) (n : Nat)
    (keyStr : List Char) (hn : n < keys.length) (hk : keyStr.length < 256) :
    assignLoopChecked (',' :: ',' :: rest) (keys, n, keyStr) =
      assignLoopChecked (',' :: rest) (keys, n, keyStr ++ [',']) := by
  rw [assignLoopChecked, if_neg comma_not_terminator, if_pos ⟨hn, hk⟩, if_neg (by simp)]

theorem assignLoopChecked_comma (rest : List Char) (keys : List (List Char)) (n : Nat)
    (keyStr : List Char) (hn : n < keys.length) (hk : keyStr.length < 256)
    (hrest : rest.headD NUL ≠ ',') :
    assignLoopChecked (',' :: rest) (keys, n, keyStr) =
      assignLoopChecked rest (keys.set n keyStr, n + 1, []) := by
  rw [assignLoopChecked, if_neg comma_not_terminator, if_pos ⟨hn, hk⟩, if_pos ⟨rfl, hrest⟩]

theorem assignLoopChecked_commas (k : Nat) (rest : List Char) (keys : List (List Char))
    (n : Nat) (keyStr : List Char) (hn : n < keys.length) (hk : keyStr.length + k < 256)
    (hrest : rest.headD NUL ≠ ',') :
    assignLoopChecked (List.replicate (k + 1) ',' ++ rest) (keys, n, keyStr) =
      assignLoopChecked rest (keys.set n (keyStr ++ List.replicate k ','), n + 1, []) := by
  induction k generalizing keyStr with
  | zero =>
    show assignLoopChecked (',' :: rest) (keys, n, keyStr) = _
    rw [assignLoopChecked_comma rest keys n keyStr hn (by omega) hrest]
    simp
  | succ k ih =>
    have e : List.replicate (k + 1 + 1) ',' ++ rest =
        ',' :: ',' :: (List.replicate k ',' ++ rest) := by
      simp [List.replicate_succ]
    have e2 : ',' :: (List.replicate k ',' ++ rest) = List.replicate (k + 1) ',' ++ rest := by
      simp [List.replicate_succ]
    rw [e, assignLoopChecked_comma_comma _ keys n keyStr hn (by omega), e2,
      ih (keyStr ++ [',']) (by simp; omega)]
    simp [List.replicate_succ]

/-- C8 (amended). Doubled comma in assignKeyMappings, for stores inside the slots: whenever
a comma of the input is immediately followed by another comma, the first comma is stored
as literal content of the current token and no token boundary is introduced at it; the
second comma is examined in its own right and ends the token unless it is itself followed
by a comma.  So in a run of k+1 commas the first k are literal and the last ends the
token: parsing pre ++ (k+1 commas) ++ rest, where pre has no comma and rest does not start
with one, yields the token pre ++ (k commas) followed by the tokens of rest. -/
theorem assignKeyMappings_doubled_comma (action : ActionMapping) (pre rest : List Char)
    (keys : List (List Char)) (n k : Nat) (keyStr : List Char) :
    (n < keys.length → keyStr.length < 256 →
      assignLoopChecked (',' :: ',' :: rest) (keys, n, keyStr) =
        assignLoopChecked (',' :: rest) (keys, n, keyStr ++ [','])) ∧
    (n < keys.length → keyStr.length < 256 → rest.headD NUL ≠ ',' →
      assignLoopChecked (',' :: rest) (keys, n, keyStr) =
        assignLoopChecked rest (keys.set n keyStr, n + 1, [])) ∧
    (n < keys.length → keyStr.length + k < 256 → rest.headD NUL ≠ ',' →
      assignLoopChecked (List.replicate (k + 1) ',' ++ rest) (keys, n, keyStr) =
        assignLoopChecked rest (keys.set n (keyStr ++ List.replicate k ','), n + 1, [])) ∧
    ((∀ c ∈ pre, isKeyChar c = true) → rest.headD NUL ≠ ',' →
      (keyTokens rest).length + 1 ≤ action.keys.length →
      pre.length + k < 256 → (∀ t ∈ keyTokens rest, t.length < 256) →
      assignKeyMappingsChecked action (pre ++ (List.replicate (k + 1) ',' ++ rest)) =
        some (assignKeyMappings action (pre ++ (List.replicate (k + 1) ',' ++ rest))) ∧
      (assignKeyMappings action (pre ++ (List.replicate (k + 1) ',' ++ rest))).mappingCount =
        (assignKeyMappings action rest).mappingCount + 1 ∧
      keyList (assignKeyMappings action (pre ++ (List.replicate (k + 1) ',' ++ rest))) =
        (pre ++ List.replicate k ',') :: keyList (assignKeyMappings action rest)) := by
  refine ⟨assignLoopChecked_comma_comma rest keys n keyStr,
    assignLoopChecked_comma rest keys n keyStr,
    assignLoopChecked_commas k rest keys n keyStr, ?_⟩
  intro hpre hrest hcap hplen hslot
  have hk : keyTokens (pre ++ (List.replicate (k + 1) ',' ++ rest)) =
      (pre ++ List.replicate k ',') :: keyTokens rest := by
    rw [keyTokens_append_clean pre _ hpre, keyTokens_commas k rest hrest]
    simp [prependFirst]
  obtain ⟨a1, _, a3⟩ := assignKeyMappings_keys_take action
    (pre ++ (List.replicate (k + 1) ',' ++ rest)) (by rw [hk]; simpa using hcap)
  obtain ⟨b1, _, b3⟩ := assignKeyMappings_keys_take action rest (by omega)
  refine ⟨?_, ?_, ?_⟩
  · apply assignKeyMappingsChecked_eq_some
    · rw [hk]; simpa using hcap
    · rw [hk]
      intro t ht
      rcases List.mem_cons.mp ht with h | h
      · rw [h]; simp; omega
      · exact hslot t h
  · rw [a1, b1, hk]; simp
  · simp only [keyList]
    rw [a3, b3, hk]

/-- C8 (amended), concrete instance: in "a,,,b" the first two commas of the run are literal
and the third ends the token, so the input parses to "a,," followed by the tokens of "b". -/
theorem assignKeyMappings_doubled_comma_witness :
    keyList (assignKeyMappings (zeroAction sampleHeader)
        ("a".toList ++ (List.replicate (2 + 1) ',' ++ "b".toList))) =
      ("a".toList ++ List.replicate 2 ',') ::
        keyList (assignKeyMappings (zeroAction sampleHeader) "b".toList) ∧
    keyList (assignKeyMappings (zeroAction sampleHeader) "a,,,b".toList) =
      ["a,,".toList, "b".toList] :=
  ⟨((assignKeyMappings_doubled_comma (zeroAction sampleHeader) "a".toList "b".toList [] 0 2
      []).2.2.2 (by decide) (by decide) (by decide) (by decide) (by decide)).2.2, by decide⟩

/-- C9 (refuted as stated). The input "a,b,c,d,e" has four commas, none followed by a
comma, so the claimed mappingCount is 5; on an action with four slots the store of the
fifth token falls outside keys, so assignKeyMappings writes out of bounds and no result
with mappingCount = 5 is produced. -/
theorem assignKeyMappings_mappingCount_counterexample :
    1 + separatorCount (scannedPart "a,b,c,d,e".toList) = 5 ∧
    (zeroAction sampleHeader).keys.length = 4 ∧
    assignKeyMappingsChecked (zeroAction sampleHeader) "a,b,c,d,e".toList = none ∧
    ¬ ∃ r : ActionMapping,
        assignKeyMappingsChecked (zeroAction sampleHeader) "a,b,c,d,e".toList = some r ∧
        r.mappingCount = 1 + separatorCount (scannedPart "a,b,c,d,e".toList) := by
  refine ⟨by decide, by decide, by decide, ?_⟩
  rintro ⟨r, hr, _⟩
  have hnone : assignKeyMappingsChecked (zeroAction sampleHeader) "a,b,c,d,e".toList = none := by
    decide
  rw [hnone] at hr
  exact absurd hr (by simp)

/-- C9 (amended). Token count of assignKeyMappings: for every input string whose tokens fit
the slots of the action (no more tokens than slots, each token shorter than the 256 bytes
of a slot), assignKeyMappings writes inside keys and the resulting mappingCount equals 1
plus the number of commas of the scanned part (the prefix before the first carriage
return, line feed or NUL) that are not immediately followed by another comma; the empty
string yields exactly one empty token, and an input whose scanned part ends with a comma
yields a final empty token. -/
theorem assignKeyMappings_mappingCount (action : ActionMapping) (value pre : List Char) :
    ((keyTokens value).length ≤ action.keys.length →
      (∀ t ∈ keyTokens value, t.length < 256) →
      assignKeyMappingsChecked action value = some (assignKeyMappings action value) ∧
      (assignKeyMappings action value).mappingCount =
        1 + separatorCount (scannedPart value)) ∧
    (1 ≤ action.keys.length →
      assignKeyMappingsChecked action [] = some (assignKeyMappings action []) ∧
      (assignKeyMappings action []).mappingCount = 1 ∧
      keyList (assignKeyMappings action []) = [[]]) ∧
    ((∀ c ∈ pre, c ≠ '\r' ∧ c ≠ '\n' ∧ c ≠ NUL) →
      (keyTokens (pre ++ [','])).length ≤ action.keys.length →
      (∀ t ∈ keyTokens (pre ++ [',']), t.length < 256) →
      assignKeyMappingsChecked action (pre ++ [',']) =
        some (assignKeyMappings action (pre ++ [','])) ∧
      (keyList (assignKeyMappings action (pre ++ [',']))).getLast? = some []) := by
  refine ⟨?_, ?_, ?_⟩
  · intro hcap hslot
    refine ⟨assignKeyMappingsChecked_eq_some action value hcap hslot, ?_⟩
    rw [assignKeyMappings_eq]
    exact keyTokens_length value
  · intro hcap
    obtain ⟨h1, _, h3⟩ := assignKeyMappings_keys_take action [] (by simpa [keyTokens] using hcap)
    refine ⟨assignKeyMappingsChecked_eq_some action [] (by simpa [keyTokens] using hcap)
      (by simp [keyTokens]), ?_, ?_⟩
    · rw [h1]; simp [keyTokens]
    · simp only [keyList]
      rw [h3]
      simp [keyTokens]
  · intro hpre hcap hslot
    obtain ⟨_, _, h3⟩ := assignKeyMappings_keys_take action (pre ++ [',']) hcap
    obtain ⟨front, _, hk⟩ := keyTokens_trailing_comma pre hpre
    refine ⟨assignKeyMappingsChecked_eq_some action (pre ++ [',']) hcap hslot, ?_⟩
    simp only [keyList]
    rw [h3, hk]
    simp

/-- C9 (amended), concrete instances: an input with a doubled comma, a separator and a
carriage return; the empty input; the input "Up,". -/
theorem assignKeyMappings_mappingCount_witness :
    (assignKeyMappings (zeroAction sampleHeader) "Up,,Down,\rLeft,Right".toList).mappingCount =
      1 + separatorCount (scannedPart "Up,,Down,\rLeft,Right".toList) ∧
    (assignKeyMappings (zeroAction sampleHeader) []).mappingCount = 1 ∧
    (keyList (assignKeyMappings (zeroAction sampleHeader) ("Up".toList ++ [',']))).getLast? =
        some [] :=
  ⟨((assignKeyMappings_mappingCount (zeroAction sampleHeader)
      "Up,,Down,\rLeft,Right".toList "Up".toList).1 (by decide) (by decide)).2,
   ((assignKeyMappings_mappingCount (zeroAction sampleHeader)
      "Up,,Down,\rLeft,Right".toList "Up".toList).2.1 (by decide)).2.1,
   ((assignKeyMappings_mappingCount (zeroAction sampleHeader)
      "Up,,Down,\rLeft,Right".toList "Up".toList).2.2 (by decide) (by decide) (by decide)).2⟩

/-! ## The dispatcher `readCallback` -/

theorem readCallback_mapping_branch (h : Header) (st : State) (key value : List Char)
    (hkey : ∀ k ∈ reservedKeys, strcasecmp key k ≠ 0) :
    readCallback h st key value =
      if st.s_keyMapping ≥ 0 ∧ st.s_setDefaultMapping = true then
        { st with s_games := modifyAt (appendAction key value) st.s_games st.s_keyMapping.toNat }
      else if st.s_keyMapping ≥ 0 then
        { st with s_games := modifyAt (overrideAction h key value) st.s_games st.s_keyMapping.toNat }
      else
        { st with s_games := gameFieldsLoop key value st.s_gameCount.toNat 0 st.s_games } := by
  simp only [reservedKeys, List.mem_cons, List.mem_singleton, forall_eq_or_imp, forall_eq,
    List.not_mem_nil, false_imp_iff, implies_true, and_true] at hkey
  obtain ⟨k1, k2, k3, k4, k5, k6, k7, k8, k9, k10, k11, k12, k13, k14, k15, k16, k17, k18, k19,
    k20, k21, k22⟩ := hkey
  rw [readCallback, if_neg k1, if_neg k2, if_neg k3, if_neg k4, if_neg k5, if_neg k6, if_neg k7,
    if_neg k8, if_neg k9, if_neg k10, if_neg k11, if_neg k12, if_neg k13, if_neg k14,
    if_neg k15, if_neg k16, if_neg k17, if_neg k18, if_neg k19, if_neg k20, if_neg k21,
    if_neg k22]


theorem toLower_toNat (c : Char) :
    c.toLower.toNat = if 65 ≤ c.toNat ∧ c.toNat ≤ 90 then c.toNat + 32 else c.toNat := by
  unfold Char.toLower
  by_cases h : c.toNat ≥ 65 ∧ c.toNat ≤ 90
  · have h2 : (65 ≤ c.toNat ∧ c.toNat ≤ 90) := h
    have hv : (c.toNat + 32).isValidChar := by
      left; omega
    simp only [h, h2, and_self, if_true]
    unfold Char.ofNat
    rw [dif_pos hv]
    rfl
  · have h2 : ¬ (65 ≤ c.toNat ∧ c.toNat ≤ 90) := h
    simp [h2]

theorem toNat_eq_zero_iff (c : Char) : c.toNat = 0 ↔ c = NUL := by
  constructor
  · intro h
    apply Char.ext
    apply UInt32.ext
    exact h
  · intro h; subst h; rfl

theorem toLower_toNat_eq_zero (c : Char) : c.toLower.toNat = 0 ↔ c = NUL := by
  rw [toLower_toNat]
  constructor
  · intro h0
    apply (toNat_eq_zero_iff c).1
    split_ifs at h0 with h
    omega
  · intro h0
    have := (toNat_eq_zero_iff c).2 h0
    split_ifs with h <;> omega

theorem toLower_inj_toNat (a b : Char) (h : a.toLower ≠ b.toLower) :
    (a.toLower.toNat : Int) - (b.toLower.toNat : Int) ≠ 0 := by
  intro hc
  apply h
  have : a.toLower.toNat = b.toLower.toNat := by omega
  rw [← Char.ofNat_toNat a.toLower, ← Char.ofNat_toNat b.toLower, this]

theorem cstr_cons_nul (as : List Char) : cstr (NUL :: as) = [] := by
  simp [cstr, List.takeWhile_cons]

theorem cstr_cons_ne (x : Char) (as : List Char) (hx : x ≠ NUL) :
    cstr (x :: as) = x :: cstr as := by
  simp [cstr, List.takeWhile_cons, hx]

theorem strcasecmp_eq_zero_iff (a b : List Char) (hb : ∀ c ∈ b, c ≠ NUL) :
    strcasecmp a b = 0 ↔ (cstr a).map Char.toLower = b.map Char.toLower := by
  induction a generalizing b with
  | nil =>
    cases b with
    | nil => simp [strcasecmp, cstr]
    | cons y bs =>
      have hy : y ≠ NUL := hb y (by simp)
      have : y.toLower.toNat ≠ 0 := fun h => hy ((toLower_toNat_eq_zero y).1 h)
      simp only [strcasecmp, cstr, List.takeWhile, List.map_nil, List.map_cons]
      constructor
      · intro h; omega
      · intro h; simp at h
  | cons x as ih =>
    cases b with
    | nil =>
      simp only [strcasecmp, List.map_nil, List.map_eq_nil_iff]
      rw [Int.natCast_eq_zero, toLower_toNat_eq_zero]
      by_cases hx : x = NUL
      · subst hx; simp [cstr_cons_nul]
      · simp [cstr_cons_ne x as hx, hx]
    | cons y bs =>
      have hy : y ≠ NUL := hb y (by simp)
      have hbs : ∀ c ∈ bs, c ≠ NUL := fun c hc => hb c (List.mem_cons_of_mem _ hc)
      rw [strcasecmp]
      by_cases hxy : x.toLower = y.toLower
      · rw [if_pos hxy, ih bs hbs]
        have hx : x ≠ NUL := by
          intro hx
          have h1 : x.toLower.toNat = 0 := (toLower_toNat_eq_zero x).2 hx
          rw [hxy] at h1
          exact hy ((toLower_toNat_eq_zero y).1 h1)
        simp [cstr_cons_ne x as hx, hxy]
      · rw [if_neg hxy]
        constructor
        · intro h; exact absurd h (toLower_inj_toNat x y hxy)
        · intro h
          by_cases hx : x = NUL
          · subst hx; simp [cstr_cons_nul] at h
          · rw [cstr_cons_ne x as hx] at h
            simp only [List.map_cons, List.cons.injEq] at h
            exact absurd h.1 hxy


/-- C13. readBool(value) returns false if and only if value, read as a C string, equals
"false" or "0" under ASCII case-insensitive comparison, and true for every other string;
in particular readBool("FALSE") = false, readBool("0") = false, readBool("yes") = true and
readBool("") = true. -/
theorem readBool_false_iff (value : List Char) :
    (readBool value = false ↔
      ((cstr value).map Char.toLower = "false".toList.map Char.toLower ∨
       (cstr value).map Char.toLower = "0".toList.map Char.toLower)) ∧
    (readBool value = true ↔
      ¬ ((cstr value).map Char.toLower = "false".toList.map Char.toLower ∨
         (cstr value).map Char.toLower = "0".toList.map Char.toLower)) ∧
    readBool "FALSE".toList = false ∧ readBool "0".toList = false ∧
    readBool "yes".toList = true ∧ readBool [] = true := by
  have h1 := strcasecmp_eq_zero_iff value "false".toList (by decide)
  have h2 := strcasecmp_eq_zero_iff value "0".toList (by decide)
  refine ⟨?_, ?_, by decide, by decide, by decide, by decide⟩
  · rw [← h1, ← h2]
    unfold readBool
    split_ifs with hc
    · exact ⟨fun _ => hc, fun _ => rfl⟩
    · exact ⟨fun hf => absurd hf (by decide), fun hf => absurd hf hc⟩
  · rw [← h1, ← h2]
    unfold readBool
    split_ifs with hc
    · exact ⟨fun hf => absurd hf (by decide), fun hf => absurd hc hf⟩
    · exact ⟨fun _ => hc, fun _ => rfl⟩

/-! ## `read`: the rewrite flag, the default as a fixed point, termination -/

theorem read_eq (h : Header) (monitorWidth monitorHeight : Int)
    (gamePairs settingsPairs : List (List Char × List Char)) (st : State) :
    read h monitorWidth monitorHeight (some gamePairs) (some settingsPairs) st =
      { returned := true
        state :=
          { settingsPassState h monitorWidth monitorHeight gamePairs settingsPairs st with
            s_settings := (reconcileOnLoad h monitorWidth monitorHeight
              (settingsPassState h monitorWidth monitorHeight gamePairs settingsPairs
                st).s_settings).1 }
        written := (reconcileOnLoad h monitorWidth monitorHeight
          (settingsPassState h monitorWidth monitorHeight gamePairs settingsPairs
            st).s_settings).2 } := rfl

theorem reconcileOnLoad_flag (h : Header) (monitorWidth monitorHeight : Int) (s : XLSettings) :
    (reconcileOnLoad h monitorWidth monitorHeight s).2 = true ↔
      ((reconcileOnLoad h monitorWidth monitorHeight s).1.windowScale ≠ s.windowScale ∨
       (reconcileOnLoad h monitorWidth monitorHeight s).1.gameScale ≠ s.gameScale) := by
  obtain ⟨kw, kg, hr, _, _, _⟩ := reconcileOnLoad_spec h monitorWidth monitorHeight s
  rw [hr]
  simp

/-- C14. The reconcile-on-load step of read sets writeRequired to true if and only if the
final windowScale differs from the stored windowScale or the final gameScale differs from
the stored gameScale; so when the settings file was read, read calls write exactly when
one of the two scales was adjusted, and when neither scale changed writeRequired is false
and write is not called. -/
theorem reconcileOnLoad_writeRequired (h : Header) (monitorWidth monitorHeight : Int)
    (s : XLSettings) (gamePairs settingsPairs : List (List Char × List Char)) (st : State) :
    ((reconcileOnLoad h monitorWidth monitorHeight s).2 = true ↔
      ((reconcileOnLoad h monitorWidth monitorHeight s).1.windowScale ≠ s.windowScale ∨
       (reconcileOnLoad h monitorWidth monitorHeight s).1.gameScale ≠ s.gameScale)) ∧
    ((read h monitorWidth monitorHeight (some gamePairs) (some settingsPairs) st).written = true ↔
      ((read h monitorWidth monitorHeight (some gamePairs) (some settingsPairs)
          st).state.s_settings.windowScale ≠
        (settingsPassState h monitorWidth monitorHeight gamePairs settingsPairs
          st).s_settings.windowScale ∨
       (read h monitorWidth monitorHeight (some gamePairs) (some settingsPairs)
          st).state.s_settings.gameScale ≠
        (settingsPassState h monitorWidth monitorHeight gamePairs settingsPairs
          st).s_settings.gameScale)) ∧
    ((read h monitorWidth monitorHeight (some gamePairs) (some settingsPairs)
          st).state.s_settings.windowScale =
        (settingsPassState h monitorWidth monitorHeight gamePairs settingsPairs
          st).s_settings.windowScale →
      (read h monitorWidth monitorHeight (some gamePairs) (some settingsPairs)
          st).state.s_settings.gameScale =
        (settingsPassState h monitorWidth monitorHeight gamePairs settingsPairs
          st).s_settings.gameScale →
      (read h monitorWidth monitorHeight (some gamePairs) (some settingsPairs) st).written =
        false) := by
  have hflag := reconcileOnLoad_flag h monitorWidth monitorHeight
    (settingsPassState h monitorWidth monitorHeight gamePairs settingsPairs st).s_settings
  refine ⟨reconcileOnLoad_flag h monitorWidth monitorHeight s, ?_, ?_⟩
  · rw [read_eq]
    exact hflag
  · rw [read_eq]
    intro h1 h2
    simp only at h1 h2 ⊢
    cases hw : (reconcileOnLoad h monitorWidth monitorHeight
      (settingsPassState h monitorWidth monitorHeight gamePairs settingsPairs st).s_settings).2
    · rfl
    · rcases hflag.1 hw with h3 | h3
      · exact absurd h1 h3
      · exact absurd h2 h3

/-- C14, concrete instances: stored scales 4 and 4 on a 1920x1080 monitor need no rewrite;
stored windowScale 9 is adjusted and the file is rewritten. -/
theorem reconcileOnLoad_writeRequired_witness :
    (read sampleHeader 1920 1080 (some []) (some [("windowScale".toList, "4".toList)])
        (initialState sampleHeader)).written = false ∧
    (read sampleHeader 1920 1080 (some []) (some [("windowScale".toList, "9".toList)])
        (initialState sampleHeader)).written = true :=
  ⟨(reconcileOnLoad_writeRequired sampleHeader 1920 1080 (s_settings_default sampleHeader) []
      [("windowScale".toList, "4".toList)] (initialState sampleHeader)).2.2
      (by decide) (by decide),
   (reconcileOnLoad_writeRequired sampleHeader 1920 1080 (s_settings_default sampleHeader) []
      [("windowScale".toList, "9".toList)] (initialState sampleHeader)).2.1.2
      (Or.inl (by decide))⟩

/-- C20. The windowed default is a fixed point of reconciliation: for every monitor of at
least 960x720 with the fullscreen flag clear, the reconcile-on-load step of read applied
to the settings produced by chooseDefaultResolution for that monitor returns them
unchanged (windowScale, gameScale and every width and height) and leaves writeRequired
false. -/
theorem reconcileOnLoad_chooseDefaultResolution (h : Header) (monitorWidth monitorHeight : Int)
    (s : XLSettings) (hfs : fullscreenSet h s = false)
    (hw : 960 ≤ monitorWidth) (hh : 720 ≤ monitorHeight) :
    reconcileOnLoad h monitorWidth monitorHeight
        (chooseDefaultResolution h monitorWidth monitorHeight s) =
      (chooseDefaultResolution h monitorWidth monitorHeight s, false) := by
  obtain ⟨k, hk, hk0, hk5, hkw, hkh, hmax, _⟩ :=
    scaleSearch_spec 240 monitorWidth monitorHeight 5 (by omega) (by omega)
  have e1 : toS32 (320 * k) = 320 * k := toS32_eq_self _ (by omega) (by omega)
  have e2 : toS32 (240 * k) = 240 * k := toS32_eq_self _ (by omega) (by omega)
  have e3 : toS32 (200 * k) = 200 * k := toS32_eq_self _ (by omega) (by omega)
  have hr : chooseDefaultResolution h monitorWidth monitorHeight s =
      { s with
        windowScale := k, gameScale := k, windowWidth := 320 * k, windowHeight := 240 * k,
        gameWidth := 320 * k, gameHeight := 200 * k } := by
    simp only [chooseDefaultResolution, hfs, hk]
    simp [e1, e2, e3]
  have h3 : 3 ≤ k := hmax 3 (by norm_num) (by omega) (by omega)
  rw [hr]
  obtain ⟨f, l, fl, ws, gs, ww, wh, gw, gh, cc, mf, pl, mv, sv⟩ := s
  simp only [fullscreenSet] at hfs
  have hfs2 : ¬ ((f &&& h.XL_FLAG_FULLSCREEN != 0) = true) := by simp [hfs]
  simp only [reconcileOnLoad, e1, e2, e3]
  rw [windowFixup_fix _ _ _ _ _ (by simp only; omega)]
  simp only [windowClamp, fullscreenSet]
  rw [if_neg hfs2, if_neg (by omega), gameFixup_fix _ _ _ (by simp only; omega)]

/-- C20, concrete instance: the 1920x1080 default (scale 4, window 1280x960) is left as it
is by the reconcile-on-load step. -/
theorem reconcileOnLoad_chooseDefaultResolution_witness :
    reconcileOnLoad sampleHeader 1920 1080
        (chooseDefaultResolution sampleHeader 1920 1080 (s_settings_default sampleHeader)) =
      (chooseDefaultResolution sampleHeader 1920 1080 (s_settings_default sampleHeader), false) :=
  reconcileOnLoad_chooseDefaultResolution sampleHeader 1920 1080 (s_settings_default sampleHeader)
    (by decide) (by decide) (by decide)

theorem windowBody_iterate (n : Nat) (s : XLSettings)
    (hW : s.windowWidth = toS32 (320 * s.windowScale))
    (hH : s.windowHeight = toS32 (240 * s.windowScale)) :
    Nat.iterate windowBody n s =
      { s with
        windowScale := s.windowScale - n
        windowWidth := toS32 (320 * (s.windowScale - n))
        windowHeight := toS32 (240 * (s.windowScale - n)) } := by
  induction n generalizing s with
  | zero =>
    obtain ⟨f, l, fl, ws, gs, ww, wh, gw, gh, cc, mf, pl, mv, sv⟩ := s
    simp only at hW hH
    simp [hW, hH]
  | succ n ih =>
    rw [Function.iterate_succ_apply, ih (windowBody s) rfl rfl]
    simp only [windowBody, Nat.cast_add, Nat.cast_one]
    rw [show s.windowScale - 1 - (n : Int) = s.windowScale - ((n : Int) + 1) by ring]

theorem gameBody_iterate (n : Nat) (s : XLSettings)
    (hW : s.gameWidth = toS32 (320 * s.gameScale))
    (hH : s.gameHeight = toS32 (200 * s.gameScale)) :
    Nat.iterate gameBody n s =
      { s with
        gameScale := s.gameScale - n
        gameWidth := toS32 (320 * (s.gameScale - n))
        gameHeight := toS32 (200 * (s.gameScale - n)) } := by
  induction n generalizing s with
  | zero =>
    obtain ⟨f, l, fl, ws, gs, ww, wh, gw, gh, cc, mf, pl, mv, sv⟩ := s
    simp only at hW hH
    simp [hW, hH]
  | succ n ih =>
    rw [Function.iterate_succ_apply, ih (gameBody s) rfl rfl]
    simp only [gameBody, Nat.cast_add, Nat.cast_one]
    rw [show s.gameScale - 1 - (n : Int) = s.gameScale - ((n : Int) + 1) by ring]

theorem windowFixup_iterate (monitorWidth monitorHeight : Int) (n fuel : Nat) (s : XLSettings)
    (w : Bool) (hfuel : n ≤ fuel)
    (hrun : ∀ i, i < n → windowCond monitorWidth monitorHeight (Nat.iterate windowBody i s))
    (hstop : ¬ windowCond monitorWidth monitorHeight (Nat.iterate windowBody n s)) :
    windowFixup monitorWidth monitorHeight fuel (s, w) =
      (Nat.iterate windowBody n s, w || decide (0 < n)) := by
  induction n generalizing fuel s w with
  | zero =>
    rw [windowFixup_fix _ _ _ _ _ (by simpa [windowCond] using hstop)]
    simp
  | succ n ih =>
    cases fuel with
    | zero => omega
    | succ fuel =>
      have h0 : s.windowScale > 3 ∧
          (s.windowWidth > monitorWidth ∨ s.windowHeight > monitorHeight) := hrun 0 (by omega)
      rw [windowFixup, if_pos h0]
      have := ih fuel (windowBody s) true (by omega)
        (fun i hi => by
          have := hrun (i + 1) (by omega)
          rwa [Function.iterate_succ_apply] at this)
        (by rwa [Function.iterate_succ_apply] at hstop)
      rw [Function.iterate_succ_apply]
      simp only [windowBody] at this ⊢
      rw [this]
      simp

theorem gameFixup_iterate (n fuel : Nat) (s : XLSettings)
    (w : Bool) (hfuel : n ≤ fuel)
    (hrun : ∀ i, i < n → gameCond (Nat.iterate gameBody i s))
    (hstop : ¬ gameCond (Nat.iterate gameBody n s)) :
    gameFixup fuel (s, w) = (Nat.iterate gameBody n s, w || decide (0 < n)) := by
  induction n generalizing fuel s w with
  | zero =>
    rw [gameFixup_fix _ _ _ (by simpa [gameCond] using hstop)]
    simp
  | succ n ih =>
    cases fuel with
    | zero => omega
    | succ fuel =>
      have h0 : s.gameScale > 1 ∧
          (s.gameWidth > s.windowWidth ∨ s.gameHeight > s.windowHeight) := hrun 0 (by omega)
      rw [gameFixup, if_pos h0]
      have := ih fuel (gameBody s) true (by omega)
        (fun i hi => by
          have := hrun (i + 1) (by omega)
          rwa [Function.iterate_succ_apply] at this)
        (by rwa [Function.iterate_succ_apply] at hstop)
      rw [Function.iterate_succ_apply]
      simp only [gameBody] at this ⊢
      rw [this]
      simp

theorem windowLoop_terminates (monitorWidth monitorHeight : Int) (k : Nat) (s : XLSettings)
    (hk : (s.windowScale - 3).toNat ≤ k) :
    ∃ n : Nat, n ≤ (s.windowScale - 3).toNat ∧
      (∀ i, i < n → windowCond monitorWidth monitorHeight (Nat.iterate windowBody i s)) ∧
      ¬ windowCond monitorWidth monitorHeight (Nat.iterate windowBody n s) := by
  induction k generalizing s with
  | zero =>
    refine ⟨0, Nat.zero_le _, fun i hi => absurd hi (Nat.not_lt_zero i), ?_⟩
    intro hc
    simp only [Function.iterate_zero, id_eq, windowCond] at hc
    omega
  | succ k ih =>
    by_cases hc : windowCond monitorWidth monitorHeight s
    · have hgt : s.windowScale > 3 := hc.1
      obtain ⟨n, hn, hrun, hstop⟩ := ih (windowBody s) (by simp only [windowBody]; omega)
      refine ⟨n + 1, by simp only [windowBody] at hn; omega, ?_, ?_⟩
      · intro i hi
        cases i with
        | zero => exact hc
        | succ j =>
          rw [Function.iterate_succ_apply]
          exact hrun j (by omega)
      · rw [Function.iterate_succ_apply]; exact hstop
    · exact ⟨0, Nat.zero_le _, fun i hi => absurd hi (Nat.not_lt_zero i), hc⟩

theorem gameLoop_terminates (k : Nat) (s : XLSettings)
    (hk : (s.gameScale - 1).toNat ≤ k) :
    ∃ n : Nat, n ≤ (s.gameScale - 1).toNat ∧
      (∀ i, i < n → gameCond (Nat.iterate gameBody i s)) ∧
      ¬ gameCond (Nat.iterate gameBody n s) := by
  induction k generalizing s with
  | zero =>
    refine ⟨0, Nat.zero_le _, fun i hi => absurd hi (Nat.not_lt_zero i), ?_⟩
    intro hc
    simp only [Function.iterate_zero, id_eq, gameCond] at hc
    omega
  | succ k ih =>
    by_cases hc : gameCond s
    · have hgt : s.gameScale > 1 := hc.1
      obtain ⟨n, hn, hrun, hstop⟩ := ih (gameBody s) (by simp only [gameBody]; omega)
      refine ⟨n + 1, by simp only [gameBody] at hn; omega, ?_, ?_⟩
      · intro i hi
        cases i with
        | zero => exact hc
        | succ j =>
          rw [Function.iterate_succ_apply]
          exact hrun j (by omega)
      · rw [Function.iterate_succ_apply]; exact hstop
    · exact ⟨0, Nat.zero_le _, fun i hi => absurd hi (Nat.not_lt_zero i), hc⟩

/-- C15. Reconciliation terminates for every integer monitor size and every stored integer
windowScale and gameScale: the window fixup loop runs n times with
n <= max(0, windowScale - 3), the game fixup loop runs m times with
m <= max(0, gameScale - 1), every iteration strictly decreases its scale, both loops exit
by their own condition, and with any iteration bounds of at least n and m the step
returns the result of reconcileOnLoad. -/
theorem reconcileOnLoad_terminates (h : Header) (monitorWidth monitorHeight : Int)
    (s : XLSettings) :
    ∃ n m : Nat,
      (n : Int) ≤ max 0 (s.windowScale - 3) ∧ (m : Int) ≤ max 0 (s.gameScale - 1) ∧
      (∀ i, i < n →
        windowCond monitorWidth monitorHeight (Nat.iterate windowBody i (recomputeSizes s))) ∧
      ¬ windowCond monitorWidth monitorHeight (Nat.iterate windowBody n (recomputeSizes s)) ∧
      (∀ i, i < m →
        gameCond (Nat.iterate gameBody i
          (windowClamp h monitorWidth monitorHeight
            (Nat.iterate windowBody n (recomputeSizes s), decide (0 < n))).1)) ∧
      ¬ gameCond (Nat.iterate gameBody m
          (windowClamp h monitorWidth monitorHeight
            (Nat.iterate windowBody n (recomputeSizes s), decide (0 < n))).1) ∧
      (∀ t : XLSettings, (windowBody t).windowScale < t.windowScale) ∧
      (∀ t : XLSettings, (gameBody t).gameScale < t.gameScale) ∧
      (reconcileOnLoad h monitorWidth monitorHeight s).1 =
        Nat.iterate gameBody m
          (windowClamp h monitorWidth monitorHeight
            (Nat.iterate windowBody n (recomputeSizes s), decide (0 < n))).1 ∧
      (∀ fuelWindow fuelGame : Nat, n ≤ fuelWindow → m ≤ fuelGame →
        reconcileWithFuel h monitorWidth monitorHeight fuelWindow fuelGame s =
          reconcileOnLoad h monitorWidth monitorHeight s) := by
  obtain ⟨n, hn, hrun, hstop⟩ := windowLoop_terminates monitorWidth monitorHeight
    ((recomputeSizes s).windowScale - 3).toNat (recomputeSizes s) (le_refl _)
  have hws : (recomputeSizes s).windowScale = s.windowScale := rfl
  rw [hws] at hn
  have hwin : ∀ fuel, n ≤ fuel →
      windowFixup monitorWidth monitorHeight fuel (recomputeSizes s, false) =
        (Nat.iterate windowBody n (recomputeSizes s), decide (0 < n)) := by
    intro fuel hf
    rw [windowFixup_iterate monitorWidth monitorHeight n fuel _ false hf hrun hstop]
    simp
  have hgs : (windowClamp h monitorWidth monitorHeight
      (Nat.iterate windowBody n (recomputeSizes s), decide (0 < n))).1.gameScale =
        s.gameScale := by
    rw [windowBody_iterate n (recomputeSizes s) rfl rfl]
    simp only [windowClamp]
    split_ifs <;> rfl
  obtain ⟨m, hm, hrun2, hstop2⟩ := gameLoop_terminates
    ((windowClamp h monitorWidth monitorHeight
      (Nat.iterate windowBody n (recomputeSizes s), decide (0 < n))).1.gameScale - 1).toNat
    (windowClamp h monitorWidth monitorHeight
      (Nat.iterate windowBody n (recomputeSizes s), decide (0 < n))).1 (le_refl _)
  rw [hgs] at hm
  have hgame : ∀ fuel, m ≤ fuel →
      gameFixup fuel (windowClamp h monitorWidth monitorHeight
        (Nat.iterate windowBody n (recomputeSizes s), decide (0 < n))) =
      (Nat.iterate gameBody m (windowClamp h monitorWidth monitorHeight
        (Nat.iterate windowBody n (recomputeSizes s), decide (0 < n))).1,
       (windowClamp h monitorWidth monitorHeight
        (Nat.iterate windowBody n (recomputeSizes s), decide (0 < n))).2 || decide (0 < m)) := by
    intro fuel hf
    exact gameFixup_iterate m fuel _ _ hf hrun2 hstop2
  have hrec : reconcileOnLoad h monitorWidth monitorHeight s =
      gameFixup (s.gameScale - 1).toNat (windowClamp h monitorWidth monitorHeight
        (Nat.iterate windowBody n (recomputeSizes s), decide (0 < n))) := by
    have h1 : reconcileOnLoad h monitorWidth monitorHeight s =
        gameFixup ((windowClamp h monitorWidth monitorHeight
            (windowFixup monitorWidth monitorHeight (s.windowScale - 3).toNat
              (recomputeSizes s, false))).1.gameScale - 1).toNat
          (windowClamp h monitorWidth monitorHeight
            (windowFixup monitorWidth monitorHeight (s.windowScale - 3).toNat
              (recomputeSizes s, false))) := rfl
    rw [h1, hwin _ hn, hgs]
  refine ⟨n, m, by omega, by omega, hrun, hstop, hrun2, hstop2, ?_, ?_, ?_, ?_⟩
  · intro t; simp only [windowBody]; omega
  · intro t; simp only [gameBody]; omega
  · rw [hrec, hgame _ hm]
  · intro f1 f2 hf1 hf2
    have h2 : reconcileWithFuel h monitorWidth monitorHeight f1 f2 s =
        gameFixup f2 (windowClamp h monitorWidth monitorHeight
          (windowFixup monitorWidth monitorHeight f1 (recomputeSizes s, false))) := rfl
    rw [h2, hwin _ hf1, hgame _ hf2, hrec, hgame _ hm]

/-! ## `readCallback`: flags and `launchGame` -/

theorem strcasecmp_ne_of_ne (key a b : List Char) (ha : ∀ c ∈ a, c ≠ NUL)
    (hb : ∀ c ∈ b, c ≠ NUL) (hab : a.map Char.toLower ≠ b.map Char.toLower)
    (h : strcasecmp key a = 0) : strcasecmp key b ≠ 0 := by
  intro h2
  rw [strcasecmp_eq_zero_iff key a ha] at h
  rw [strcasecmp_eq_zero_iff key b hb] at h2
  exact hab (h.symm.trans h2)

theorem readCallback_flag_branch (h : Header) (st : State) (key value : List Char)
    (p : List Char × Nat) (hp : p ∈ flagKeys h) (hkey : strcasecmp key p.1 = 0) :
    readCallback h st key value =
      { st with
        s_settings :=
          { st.s_settings with
            flags := setFlag st.s_settings.flags p.2 (readBool value) } } := by
  simp only [flagKeys, List.mem_cons, List.mem_singleton, List.not_mem_nil, or_false] at hp
  rcases hp with rfl | rfl | rfl | rfl | rfl | rfl | rfl <;> dsimp only at hkey ⊢
  · rw [readCallback, if_pos hkey]
  · have n1 := strcasecmp_ne_of_ne key "immediateExit".toList "fullscreen".toList (by decide) (by decide)
      (by decide) hkey
    rw [readCallback, if_neg n1, if_pos hkey]
  · have n1 := strcasecmp_ne_of_ne key "showAllGames".toList "fullscreen".toList (by decide) (by decide)
      (by decide) hkey
    have n2 := strcasecmp_ne_of_ne key "showAllGames".toList "immediateExit".toList (by decide) (by decide)
      (by decide) hkey
    rw [readCallback, if_neg n1, if_neg n2, if_pos hkey]
  · have n1 := strcasecmp_ne_of_ne key "uiGlow".toList "fullscreen".toList (by decide) (by decide)
      (by decide) hkey
    have n2 := strcasecmp_ne_of_ne key "uiGlow".toList "immediateExit".toList (by decide) (by decide)
      (by decide) hkey
    have n3 := strcasecmp_ne_of_ne key "uiGlow".toList "showAllGames".toList (by decide) (by decide)
      (by decide) hkey
    rw [readCallback, if_neg n1, if_neg n2, if_neg n3, if_pos hkey]
  · have n1 := strcasecmp_ne_of_ne key "colorCorrect".toList "fullscreen".toList (by decide) (by decide)
      (by decide) hkey
    have n2 := strcasecmp_ne_of_ne key "colorCorrect".toList "immediateExit".toList (by decide) (by decide)
      (by decide) hkey
    have n3 := strcasecmp_ne_of_ne key "colorCorrect".toList "showAllGames".toList (by decide) (by decide)
      (by decide) hkey
    have n4 := strcasecmp_ne_of_ne key "colorCorrect".toList "uiGlow".toList (by decide) (by decide)
      (by decide) hkey
    rw [readCallback, if_neg n1, if_neg n2, if_neg n3, if_neg n4, if_pos hkey]
  · have n1 := strcasecmp_ne_of_ne key "vsync".toList "fullscreen".toList (by decide) (by decide)
      (by decide) hkey
    have n2 := strcasecmp_ne_of_ne key "vsync".toList "immediateExit".toList (by decide) (by decide)
      (by decide) hkey
    have n3 := strcasecmp_ne_of_ne key "vsync".toList "showAllGames".toList (by decide) (by decide)
      (by decide) hkey
    have n4 := strcasecmp_ne_of_ne key "vsync".toList "uiGlow".toList (by decide) (by decide)
      (by decide) hkey
    have n5 := strcasecmp_ne_of_ne key "vsync".toList "colorCorrect".toList (by decide) (by decide)
      (by decide) hkey
    rw [readCallback, if_neg n1, if_neg n2, if_neg n3, if_neg n4, if_neg n5, if_pos hkey]
  · have n1 := strcasecmp_ne_of_ne key "reduceCPU".toList "fullscreen".toList (by decide) (by decide)
      (by decide) hkey
    have n2 := strcasecmp_ne_of_ne key "reduceCPU".toList "immediateExit".toList (by decide) (by decide)
      (by decide) hkey
    have n3 := strcasecmp_ne_of_ne key "reduceCPU".toList "showAllGames".toList (by decide) (by decide)
      (by decide) hkey
    have n4 := strcasecmp_ne_of_ne key "reduceCPU".toList "uiGlow".toList (by decide) (by decide)
      (by decide) hkey
    have n5 := strcasecmp_ne_of_ne key "reduceCPU".toList "colorCorrect".toList (by decide) (by decide)
      (by decide) hkey
    have n6 := strcasecmp_ne_of_ne key "reduceCPU".toList "vsync".toList (by decide) (by decide)
      (by decide) hkey
    rw [readCallback, if_neg n1, if_neg n2, if_neg n3, if_neg n4, if_neg n5, if_neg n6, if_pos hkey]

theorem readCallback_launchGame_branch (h : Header) (st : State) (key value : List Char)
    (hkey : strcasecmp key "launchGame".toList = 0) :
    readCallback h st key value =
      { st with
        s_settings :=
          { st.s_settings with
            launchGameID := findGame value (st.s_games.take st.s_gameCount.toNat) 0 } } := by
  have n1 := strcasecmp_ne_of_ne key "launchGame".toList "fullscreen".toList (by decide) (by decide) (by decide) hkey
  have n2 := strcasecmp_ne_of_ne key "launchGame".toList "immediateExit".toList (by decide) (by decide) (by decide) hkey
  have n3 := strcasecmp_ne_of_ne key "launchGame".toList "showAllGames".toList (by decide) (by decide) (by decide) hkey
  have n4 := strcasecmp_ne_of_ne key "launchGame".toList "uiGlow".toList (by decide) (by decide) (by decide) hkey
  have n5 := strcasecmp_ne_of_ne key "launchGame".toList "colorCorrect".toList (by decide) (by decide) (by decide) hkey
  have n6 := strcasecmp_ne_of_ne key "launchGame".toList "vsync".toList (by decide) (by decide) (by decide) hkey
  have n7 := strcasecmp_ne_of_ne key "launchGame".toList "reduceCPU".toList (by decide) (by decide) (by decide) hkey
  rw [readCallback, if_neg n1, if_neg n2, if_neg n3, if_neg n4, if_neg n5, if_neg n6,
    if_neg n7, if_pos hkey]

theorem findGame_spec (value : List Char) (l : List GameInfo) (start : Nat) :
    (∀ (g : Nat) (info : GameInfo), l[g]? = some info → strcasecmp value info.name = 0 →
      (∀ (g2 : Nat) (info2 : GameInfo), g2 < g → l[g2]? = some info2 →
        strcasecmp value info2.name ≠ 0) →
      findGame value l start = ((start + g : Nat) : Int)) ∧
    ((∀ (g : Nat) (info : GameInfo), l[g]? = some info → strcasecmp value info.name ≠ 0) →
      findGame value l start = -1) := by
  induction l generalizing start with
  | nil =>
    refine ⟨fun g info hg => by simp at hg, fun _ => rfl⟩
  | cons y ys ih =>
    refine ⟨?_, ?_⟩
    · intro g info hg hm hfirst
      cases g with
      | zero =>
        simp only [List.getElem?_cons_zero, Option.some.injEq] at hg
        subst hg
        rw [findGame, if_pos hm]
        simp
      | succ j =>
        simp only [List.getElem?_cons_succ] at hg
        have hy : strcasecmp value y.name ≠ 0 := hfirst 0 y (by omega) (by simp)
        rw [findGame, if_neg hy, (ih (start + 1)).1 j info hg hm
          (fun g2 info2 hlt h2 => hfirst (g2 + 1) info2 (by omega) (by simpa using h2))]
        congr 1
        omega
    · intro hnone
      have hy : strcasecmp value y.name ≠ 0 := hnone 0 y (by simp)
      rw [findGame, if_neg hy]
      exact (ih (start + 1)).2 (fun g info hg => hnone (g + 1) info (by simpa using hg))

theorem setFlag_testBit (flags bit : Nat) (b : Bool) (j : Nat) (hj : j < 32) :
    (setFlag flags bit b).testBit j = if bit.testBit j then b else flags.testBit j := by
  have h32 : (4294967296 : Nat) = 2 ^ 32 := by norm_num
  have hm : (4294967295 : Nat) = 2 ^ 32 - 1 := by norm_num
  cases b with
  | true =>
    simp only [setFlag, if_true]
    rw [h32, Nat.testBit_mod_two_pow, Nat.testBit_lor]
    by_cases hb : bit.testBit j = true
    · simp [hb, hj]
    · simp [hb, hj]
  | false =>
    simp only [setFlag, Bool.false_eq_true, if_false]
    rw [Nat.testBit_land, Nat.testBit_xor, hm, Nat.testBit_two_pow_sub_one, h32,
      Nat.testBit_mod_two_pow]
    by_cases hb : bit.testBit j = true
    · simp [hb, hj]
    · simp [hb, hj]

theorem setFlag_lt (flags bit : Nat) (b : Bool) (hf : flags < 4294967296) :
    setFlag flags bit b < 4294967296 := by
  cases b with
  | true =>
    simp only [setFlag, if_true]
    exact Nat.mod_lt _ (by norm_num)
  | false =>
    simp only [setFlag, Bool.false_eq_true, if_false]
    exact lt_of_le_of_lt Nat.and_le_left hf

/-- C15, concrete instance: stored scales 9 and 9 on a 1024x768 monitor. -/
theorem reconcileOnLoad_terminates_witness :
    ∃ n m : Nat, (n : Int) ≤ 6 ∧ (m : Int) ≤ 8 ∧
      (∀ fuelWindow fuelGame : Nat, n ≤ fuelWindow → m ≤ fuelGame →
        reconcileWithFuel sampleHeader 1024 768 fuelWindow fuelGame
            { s_settings_default sampleHeader with windowScale := 9, gameScale := 9 } =
          reconcileOnLoad sampleHeader 1024 768
            { s_settings_default sampleHeader with windowScale := 9, gameScale := 9 }) :=
  match reconcileOnLoad_terminates sampleHeader 1024 768
      { s_settings_default sampleHeader with windowScale := 9, gameScale := 9 } with
  | ⟨n, m, hn, hm, _, _, _, _, _, _, _, hfuel⟩ => ⟨n, m, hn, hm, hfuel⟩

/-- C16. Flag dispatch is bit-local: for each of the seven flag keys (matched
case-insensitively) and every value, readCallback replaces flags by the result of setting
(readBool(value) true) or clearing (false) the flag constant of the key and changes
nothing else: every other settings field, the game registry, the graphics device
selection and the parse context are unchanged, whether or not a mapping block is open.
In the new flags every bit of the flag constant equals readBool(value) and every other
bit of the 32 is unchanged. -/
theorem readCallback_flag_bit_local (h : Header) (st : State) (key value : List Char)
    (p : List Char × Nat) (hp : p ∈ flagKeys h) (hkey : strcasecmp key p.1 = 0) :
    readCallback h st key value =
      { st with
        s_settings :=
          { st.s_settings with
            flags := setFlag st.s_settings.flags p.2 (readBool value) } } ∧
    (∀ j : Nat, j < 32 →
      (readCallback h st key value).s_settings.flags.testBit j =
        if p.2.testBit j then readBool value else st.s_settings.flags.testBit j) ∧
    (st.s_settings.flags < 4294967296 →
      (readCallback h st key value).s_settings.flags < 4294967296) ∧
    (readCallback h st key value).s_games = st.s_games ∧
    (readCallback h st key value).s_graphicsDeviceID = st.s_graphicsDeviceID ∧
    (readCallback h st key value).s_keyMapping = st.s_keyMapping ∧
    (readCallback h st key value).s_setDefaultMapping = st.s_setDefaultMapping := by
  rw [readCallback_flag_branch h st key value p hp hkey]
  exact ⟨rfl, fun j hj => setFlag_testBit _ _ _ j hj, fun hf => setFlag_lt _ _ _ hf,
    rfl, rfl, rfl, rfl⟩

/-- C16, concrete instance: inside an open mapping block, VSYNC=0 clears bit 5 of the flags
44 and leaves the rest of the state as it is. -/
theorem readCallback_flag_bit_local_witness :
    readCallback sampleHeader
        { settingsBlockExample with
          s_settings := { settingsBlockExample.s_settings with flags := 44 } }
        "VSYNC".toList "0".toList =
      { settingsBlockExample with
        s_settings := { settingsBlockExample.s_settings with flags := 12 } } :=
  ((readCallback_flag_bit_local sampleHeader
      { settingsBlockExample with
        s_settings := { settingsBlockExample.s_settings with flags := 44 } }
      "VSYNC".toList "0".toList ("vsync".toList, 32) (by decide) (by decide)).1).trans
    (by decide)

/-- C17. launchGame dispatch: for every value, readCallback with the key launchGame sets
launchGameID to the smallest index g in [0, gameCount) whose game name equals value
case-insensitively, and to -1 when no name of a game in [0, gameCount) matches, whatever
the previous launchGameID was; nothing else changes. -/
theorem readCallback_launchGame (h : Header) (st : State) (key value : List Char)
    (hkey : strcasecmp key "launchGame".toList = 0) :
    readCallback h st key value =
      { st with
        s_settings :=
          { st.s_settings with
            launchGameID := (readCallback h st key value).s_settings.launchGameID } } ∧
    (∀ (g : Nat) (info : GameInfo), (g : Int) < st.s_gameCount → st.s_games[g]? = some info →
      strcasecmp value info.name = 0 →
      (∀ (g2 : Nat) (info2 : GameInfo), g2 < g → st.s_games[g2]? = some info2 →
        strcasecmp value info2.name ≠ 0) →
      (readCallback h st key value).s_settings.launchGameID = (g : Int)) ∧
    ((∀ (g : Nat) (info : GameInfo), (g : Int) < st.s_gameCount → st.s_games[g]? = some info →
        strcasecmp value info.name ≠ 0) →
      (readCallback h st key value).s_settings.launchGameID = -1) := by
  rw [readCallback_launchGame_branch h st key value hkey]
  refine ⟨rfl, ?_, ?_⟩
  · intro g info hg hinfo hm hfirst
    have hlt : g < st.s_gameCount.toNat := by omega
    have := (findGame_spec value (st.s_games.take st.s_gameCount.toNat) 0).1 g info
      (by rw [List.getElem?_take_of_lt hlt]; exact hinfo) hm
      (fun g2 info2 h2 hi2 => hfirst g2 info2 h2
        (by rw [List.getElem?_take_of_lt (by omega)] at hi2; exact hi2))
    simpa using this
  · intro hnone
    exact (findGame_spec value (st.s_games.take st.s_gameCount.toNat) 0).2
      (fun g info hi => by
        by_cases hlt : g < st.s_gameCount.toNat
        · rw [List.getElem?_take_of_lt hlt] at hi
          exact hnone g info (by omega) hi
        · rw [List.getElem?_take_eq_none (by omega)] at hi
          exact absurd hi (by simp))

/-- C17, concrete instance: after the game-data pass that names game 0 DarkXL, the pair
launchGame=darkxl stores index 0 and launchGame=Doom stores -1. -/
theorem readCallback_launchGame_witness :
    (readCallback sampleHeader gameDataExample "launchGame".toList
      "darkxl".toList).s_settings.launchGameID = 0 ∧
    (readCallback sampleHeader gameDataExample "launchGame".toList
      "Doom".toList).s_settings.launchGameID = -1 :=
  ⟨(readCallback_launchGame sampleHeader gameDataExample "launchGame".toList "darkxl".toList
      (by decide)).2.1 0 jumpExample (by decide) (by decide) (by decide)
      (fun g2 _ hlt => absurd hlt (Nat.not_lt_zero g2)),
   (readCallback_launchGame sampleHeader gameDataExample "launchGame".toList "Doom".toList
      (by decide)).2.2
      (fun g info hg hinfo => by
        have hc : gameDataExample.s_gameCount = 1 := by decide
        have hg0 : g = 0 := by omega
        subst hg0
        have h0 : gameDataExample.s_games[0]? = some jumpExample := by decide
        rw [h0] at hinfo
        cases hinfo
        decide)⟩

/-! ## Key mappings: the join of `write` undoes `assignKeyMappings` -/

theorem joinComma_cons_cons (c : Char) (t : List Char) (ts : List (List Char)) :
    joinComma ((c :: t) :: ts) = c :: joinComma (t :: ts) := by
  cases ts with
  | nil => simp [joinComma]
  | cons t2 r => simp [joinComma]

theorem scannedPart_nil : scannedPart [] = [] := rfl

theorem scannedPart_cons_stop (c : Char) (rest : List Char)
    (h : c = '\r' ∨ c = '\n' ∨ c = NUL) : scannedPart (c :: rest) = [] := by
  have : (!(c == '\r' || c == '\n' || c == NUL)) = false := by
    rcases h with h | h | h <;> simp [h]
  simp only [scannedPart]
  rw [List.takeWhile, this]

theorem scannedPart_cons_go (c : Char) (rest : List Char)
    (h : ¬ (c = '\r' ∨ c = '\n' ∨ c = NUL)) : scannedPart (c :: rest) = c :: scannedPart rest := by
  have hnt : (!(c == '\r' || c == '\n' || c == NUL)) = true := by
    simp only [not_or] at h
    simp [h.1, h.2.1, h.2.2]
  simp only [scannedPart]
  rw [List.takeWhile, hnt]

theorem joinComma_keyTokens (raw : List Char) :
    joinComma (keyTokens raw) = scannedPart raw := by
  induction raw with
  | nil => simp [keyTokens, joinComma, scannedPart_nil]
  | cons c rest ih =>
    rw [keyTokens]
    by_cases h1 : c = '\r' ∨ c = '\n' ∨ c = NUL
    · rw [if_pos h1, scannedPart_cons_stop c rest h1]
      simp [joinComma]
    · rw [if_neg h1, scannedPart_cons_go c rest h1]
      by_cases h2 : c = ',' ∧ rest.headD NUL ≠ ','
      · rw [if_pos h2]
        cases hk : keyTokens rest with
        | nil => exact absurd hk (keyTokens_ne_nil rest)
        | cons t ts =>
          rw [hk] at ih
          rw [joinComma, ih, h2.1]
          simp
      · rw [if_neg h2]
        cases hk : keyTokens rest with
        | nil => exact absurd hk (keyTokens_ne_nil rest)
        | cons t ts =>
          rw [hk] at ih
          simp only
          rw [joinComma_cons_cons, ih]

theorem scannedPart_of_clean (raw : List Char)
    (hraw : ∀ c ∈ raw, c ≠ '\r' ∧ c ≠ '\n' ∧ c ≠ NUL) : scannedPart raw = raw := by
  induction raw with
  | nil => rfl
  | cons c rest ih =>
    have hc := hraw c (by simp)
    rw [scannedPart_cons_go c rest (by
      rintro (h | h | h)
      · exact hc.1 h
      · exact hc.2.1 h
      · exact hc.2.2 h), ih (fun d hd => hraw d (List.mem_cons_of_mem _ hd))]

/-- C19 (refuted as stated). The input of `longKeysExample` (three names of 200
characters, 602 characters with the two commas) has no carriage return, line feed or NUL
and is within token length and mapping-count capacity: assignKeyMappings stores its three
tokens inside the four slots.  Joining them as write does needs 603 bytes of the 512-byte
buffer str, so strcat writes past its end and the input is not reproduced. -/
theorem writeKeys_assignKeyMappings_counterexample :
    (∀ c ∈ longKeysExample, c ≠ '\r' ∧ c ≠ '\n' ∧ c ≠ NUL) ∧
    longKeysExample.length = 602 ∧
    assignKeyMappingsChecked (zeroAction sampleHeader) longKeysExample =
      some (assignKeyMappings (zeroAction sampleHeader) longKeysExample) ∧
    keyList (assignKeyMappings (zeroAction sampleHeader) longKeysExample) =
      [List.replicate 200 'a', List.replicate 200 'b', List.replicate 200 'c'] ∧
    writeKeysChecked (assignKeyMappings (zeroAction sampleHeader) longKeysExample) = none ∧
    writeKeysChecked (assignKeyMappings (zeroAction sampleHeader) longKeysExample) ≠
      some longKeysExample := by
  decide

/-- C19 (amended). Serialize undoes parse: for every input string shorter than the 512
bytes of the buffer str of write, without carriage return, line feed or NUL, whose tokens
fit the slots (no more tokens than slots, each token shorter than the 256 bytes of a
slot), assignKeyMappings writes inside keys, and joining the tokens it produced with
single commas, as write does, stays inside str and gives back the input string exactly
(doubled commas included); consequently parsing the joined string again yields the same
key list and the same mappingCount. -/
theorem writeKeys_assignKeyMappings (action action2 : ActionMapping) (raw : List Char)
    (hraw : ∀ c ∈ raw, c ≠ '\r' ∧ c ≠ '\n' ∧ c ≠ NUL)
    (hcap : (keyTokens raw).length ≤ action.keys.length)
    (hcap2 : (keyTokens raw).length ≤ action2.keys.length)
    (hslot : ∀ t ∈ keyTokens raw, t.length < 256)
    (hstr : raw.length < 512) :
    assignKeyMappingsChecked action raw = some (assignKeyMappings action raw) ∧
    writeKeysChecked (assignKeyMappings action raw) = some raw ∧
    writeKeys (assignKeyMappings action raw) = raw ∧
    assignKeyMappingsChecked action2 (writeKeys (assignKeyMappings action raw)) =
      some (assignKeyMappings action2 (writeKeys (assignKeyMappings action raw))) ∧
    keyList (assignKeyMappings action2 (writeKeys (assignKeyMappings action raw))) =
      keyList (assignKeyMappings action raw) ∧
    (assignKeyMappings action2 (writeKeys (assignKeyMappings action raw))).mappingCount =
      (assignKeyMappings action raw).mappingCount := by
  obtain ⟨h1, h2, h3⟩ := assignKeyMappings_keys_take action raw hcap
  have hlen : (assignKeyMappings action raw).mappingCount ≤
      (assignKeyMappings action raw).keys.length := by
    rw [h1, h2, List.length_append, List.length_drop]
    omega
  have hw : writeKeys (assignKeyMappings action raw) = raw := by
    rw [writeKeys_eq_joinComma _ hlen, h3, joinComma_keyTokens, scannedPart_of_clean raw hraw]
  obtain ⟨g1, _, g3⟩ := assignKeyMappings_keys_take action2 raw hcap2
  refine ⟨assignKeyMappingsChecked_eq_some action raw hcap hslot, ?_, hw, ?_, ?_, ?_⟩
  · have := writeKeysChecked_eq_some (assignKeyMappings action raw) hlen (by rw [hw]; exact hstr)
    rw [this, hw]
  · rw [hw]
    exact assignKeyMappingsChecked_eq_some action2 raw hcap2 hslot
  · rw [hw]
    simp only [keyList]
    rw [g3, h3]
  · rw [hw, g1, h1]

/-- C19 (amended), concrete instance: the input "a,,b,c" is parsed to the tokens "a,", "b",
"c" and joined back to "a,,b,c". -/
theorem writeKeys_assignKeyMappings_witness :
    writeKeysChecked (assignKeyMappings (zeroAction sampleHeader) "a,,b,c".toList) =
      some "a,,b,c".toList ∧
    keyList (assignKeyMappings (zeroAction sampleHeader) "a,,b,c".toList) =
      ["a,".toList, "b".toList, "c".toList] :=
  ⟨(writeKeys_assignKeyMappings (zeroAction sampleHeader) (zeroAction sampleHeader)
      "a,,b,c".toList (by decide) (by decide) (by decide) (by decide) (by decide)).2.1,
    by decide⟩

/-! ## `readCallback`: the key-mapping branches -/

theorem modifyAt_map_eq {α β : Type} (f : α → α) (sig : α → β) (l : List α) (i : Nat)
    (hf : ∀ x, sig (f x) = sig x) : (modifyAt f l i).map sig = l.map sig := by
  induction l generalizing i with
  | nil => rfl
  | cons y ys ih =>
    cases i with
    | zero => simp [modifyAt, hf]
    | succ j => simp [modifyAt, ih j]

theorem modifyAt_fix {α : Type} (f : α → α) (l : List α) (i : Nat)
    (hf : ∀ x, l[i]? = some x → f x = x) : modifyAt f l i = l := by
  induction l generalizing i with
  | nil => rfl
  | cons y ys ih =>
    cases i with
    | zero => simp [modifyAt, hf y (by simp)]
    | succ j =>
      simp only [modifyAt, List.cons.injEq, true_and]
      exact ih j (fun x hx => hf x (by simpa using hx))

theorem assignKeyMappings_action (action : ActionMapping) (value : List Char) :
    (assignKeyMappings action value).action = action.action := by
  rw [assignKeyMappings_eq]

theorem overrideAction_signature (h : Header) (key value : List Char) (info : GameInfo) :
    actionSignature (overrideAction h key value info) = actionSignature info := by
  simp only [overrideAction]
  split_ifs with hc
  · simp only [actionSignature, Prod.mk.injEq, true_and]
    exact modifyAt_map_eq _ _ _ _ (fun x => by rw [assignKeyMappings_action])
  · rfl

theorem gameFieldsLoop_signature (key value : List Char) (n g : Nat) (games : List GameInfo) :
    (gameFieldsLoop key value n g games).map actionSignature = games.map actionSignature := by
  induction n generalizing g games with
  | zero => rfl
  | succ n ih =>
    simp only [gameFieldsLoop]
    rw [ih]
    split_ifs
    · exact modifyAt_map_eq _ _ _ _ (fun x => rfl)
    · exact modifyAt_map_eq _ _ _ _ (fun x => rfl)
    · exact modifyAt_map_eq _ _ _ _ (fun x => rfl)
    · exact modifyAt_map_eq _ _ _ _ (fun x => rfl)
    · rfl

theorem readCallback_cases (h : Header) (st : State) (key value : List Char) :
    ((readCallback h st key value).s_games = st.s_games ∧
      (readCallback h st key value).s_setDefaultMapping = st.s_setDefaultMapping) ∨
    (∀ k ∈ reservedKeys, strcasecmp key k ≠ 0) := by
  unfold readCallback
  by_cases c1 : strcasecmp key "fullscreen".toList = 0
  · rw [if_pos c1]
    exact Or.inl ⟨rfl, rfl⟩
  rw [if_neg c1]
  by_cases c2 : strcasecmp key "immediateExit".toList = 0
  · rw [if_pos c2]
    exact Or.inl ⟨rfl, rfl⟩
  rw [if_neg c2]
  by_cases c3 : strcasecmp key "showAllGames".toList = 0
  · rw [if_pos c3]
    exact Or.inl ⟨rfl, rfl⟩
  rw [if_neg c3]
  by_cases c4 : strcasecmp key "uiGlow".toList = 0
  · rw [if_pos c4]
    exact Or.inl ⟨rfl, rfl⟩
  rw [if_neg c4]
  by_cases c5 : strcasecmp key "colorCorrect".toList = 0
  · rw [if_pos c5]
    exact Or.inl ⟨rfl, rfl⟩
  rw [if_neg c5]
  by_cases c6 : strcasecmp key "vsync".toList = 0
  · rw [if_pos c6]
    exact Or.inl ⟨rfl, rfl⟩
  rw [if_neg c6]
  by_cases c7 : strcasecmp key "reduceCPU".toList = 0
  · rw [if_pos c7]
    exact Or.inl ⟨rfl, rfl⟩
  rw [if_neg c7]
  by_cases c8 : strcasecmp key "launchGame".toList = 0
  · rw [if_pos c8]
    exact Or.inl ⟨rfl, rfl⟩
  rw [if_neg c8]
  by_cases c9 : strcasecmp key "frameLimit".toList = 0
  · rw [if_pos c9]
    exact Or.inl ⟨rfl, rfl⟩
  rw [if_neg c9]
  by_cases c10 : strcasecmp key "brightness".toList = 0
  · rw [if_pos c10]
    exact Or.inl ⟨rfl, rfl⟩
  rw [if_neg c10]
  by_cases c11 : strcasecmp key "saturation".toList = 0
  · rw [if_pos c11]
    exact Or.inl ⟨rfl, rfl⟩
  rw [if_neg c11]
  by_cases c12 : strcasecmp key "contrast".toList = 0
  · rw [if_pos c12]
    exact Or.inl ⟨rfl, rfl⟩
  rw [if_neg c12]
  by_cases c13 : strcasecmp key "gamma".toList = 0
  · rw [if_pos c13]
    exact Or.inl ⟨rfl, rfl⟩
  rw [if_neg c13]
  by_cases c14 : strcasecmp key "musicVolume".toList = 0
  · rw [if_pos c14]
    exact Or.inl ⟨rfl, rfl⟩
  rw [if_neg c14]
  by_cases c15 : strcasecmp key "soundVolume".toList = 0
  · rw [if_pos c15]
    exact Or.inl ⟨rfl, rfl⟩
  rw [if_neg c15]
  by_cases c16 : strcasecmp key "midiformat".toList = 0
  · rw [if_pos c16]
    left
    split_ifs <;> exact ⟨rfl, rfl⟩
  rw [if_neg c16]
  by_cases c17 : strcasecmp key "patchloc".toList = 0
  · rw [if_pos c17]
    exact Or.inl ⟨rfl, rfl⟩
  rw [if_neg c17]
  by_cases c18 : strcasecmp key "graphicsDevice".toList = 0
  · rw [if_pos c18]
    left
    split_ifs <;> exact ⟨rfl, rfl⟩
  rw [if_neg c18]
  by_cases c19 : strcasecmp key "windowScale".toList = 0
  · rw [if_pos c19]
    exact Or.inl ⟨rfl, rfl⟩
  rw [if_neg c19]
  by_cases c20 : strcasecmp key "gameScale".toList = 0
  · rw [if_pos c20]
    exact Or.inl ⟨rfl, rfl⟩
  rw [if_neg c20]
  by_cases c21 : strcasecmp key "gameCount".toList = 0
  · rw [if_pos c21]
    exact Or.inl ⟨rfl, rfl⟩
  rw [if_neg c21]
  by_cases c22 : strcasecmp key "keyMapping".toList = 0
  · rw [if_pos c22]
    exact Or.inl ⟨rfl, rfl⟩
  rw [if_neg c22]
  right
  simp only [reservedKeys, List.mem_cons, List.mem_singleton, forall_eq_or_imp, forall_eq,
    List.not_mem_nil, false_imp_iff, implies_true, and_true]
  exact ⟨c1, c2, c3, c4, c5, c6, c7, c8, c9, c10, c11, c12, c13, c14, c15, c16, c17, c18, c19, c20, c21, c22⟩

theorem readCallback_mode (h : Header) (st : State) (key value : List Char) :
    (readCallback h st key value).s_setDefaultMapping = st.s_setDefaultMapping := by
  rcases readCallback_cases h st key value with hc | hc
  · exact hc.2
  · rw [readCallback_mapping_branch h st key value hc]
    split_ifs <;> rfl

theorem readCallback_signature (h : Header) (st : State) (key value : List Char)
    (hmode : st.s_setDefaultMapping = false) :
    (readCallback h st key value).s_games.map actionSignature =
      st.s_games.map actionSignature := by
  rcases readCallback_cases h st key value with hc | hc
  · rw [hc.1]
  · have hnot : ¬ (st.s_keyMapping ≥ 0 ∧ st.s_setDefaultMapping = true) := by
      rw [hmode]; simp
    rw [readCallback_mapping_branch h st key value hc, if_neg hnot]
    split_ifs
    · exact modifyAt_map_eq _ _ _ _ (fun x => overrideAction_signature h key value x)
    · exact gameFieldsLoop_signature _ _ _ _ _

theorem readPairs_signature (h : Header) (pairs : List (List Char × List Char)) (st : State)
    (hmode : st.s_setDefaultMapping = false) :
    (readPairs h st pairs).s_games.map actionSignature = st.s_games.map actionSignature ∧
    (readPairs h st pairs).s_setDefaultMapping = false := by
  induction pairs generalizing st with
  | nil => exact ⟨rfl, hmode⟩
  | cons kv rest ih =>
    have hm2 : (readCallback h st kv.1 kv.2).s_setDefaultMapping = false := by
      rw [readCallback_mode, hmode]
    have := ih (readCallback h st kv.1 kv.2) hm2
    simp only [readPairs, List.foldl_cons] at this ⊢
    rw [this.1, readCallback_signature h st kv.1 kv.2 hmode]
    exact ⟨rfl, this.2⟩

theorem findAction_none (key : List Char) (l : List ActionMapping) (start : Nat)
    (hnone : ∀ (a : Nat) (m : ActionMapping), l[a]? = some m → strcasecmp m.action key ≠ 0) :
    findAction key l start = -1 := by
  induction l generalizing start with
  | nil => rfl
  | cons y ys ih =>
    rw [findAction, if_neg (hnone 0 y (by simp))]
    exact ih (start + 1) (fun a m hm => hnone (a + 1) m (by simpa using hm))

theorem map_getElem?_of_map_eq {α β : Type} (sig : α → β) (l l2 : List α)
    (hmap : l2.map sig = l.map sig) (g : Nat) (x : α) (hx : l[g]? = some x) :
    ∃ x2, l2[g]? = some x2 ∧ sig x2 = sig x := by
  have h1 : (l2.map sig)[g]? = (l.map sig)[g]? := by rw [hmap]
  rw [List.getElem?_map, List.getElem?_map, hx] at h1
  cases hl : l2[g]? with
  | none => rw [hl] at h1; simp at h1
  | some x2 =>
    rw [hl] at h1
    simp only [Option.map_some', Option.some.injEq] at h1
    exact ⟨x2, rfl, h1⟩

/-- C11 (refuted as stated). In the settings pass after the game-data pass Jump=Space, with
the mapping block of game 0 open (keyMapping index 0, within the registry), the pair
Jump=a,b,c,d,e reaches the override branch for the action Jump; its value has five tokens
and keys has four slots, so assignKeyMappings stores the fifth token past the end of keys,
into the memory that follows it in the registry: the override is not confined to the key
list of Jump, and the actions of the registry are not kept. -/
theorem settings_pass_keeps_actions_counterexample :
    settingsBlockExample.s_setDefaultMapping = false ∧
    settingsBlockExample.s_keyMapping = 0 ∧
    settingsBlockExample.s_games[0]? = some jumpExample ∧
    (∀ k ∈ reservedKeys, strcasecmp "Jump".toList k ≠ 0) ∧
    findAction "Jump".toList (jumpExample.actionMapping.take jumpExample.actionCount) 0 = 0 ∧
    (keyTokens "a,b,c,d,e".toList).length = 5 ∧
    (zeroKeys sampleHeader).length = 4 ∧
    overrideActionChecked sampleHeader "Jump".toList "a,b,c,d,e".toList jumpExample = none ∧
    readCallbackInBounds sampleHeader settingsBlockExample "Jump".toList
      "a,b,c,d,e".toList = false := by
  decide

/-- C11 (amended). The settings pass cannot introduce actions: after any sequence of
(key, value) pairs dispatched through readCallback with s_setDefaultMapping = false in
which every access to the registry stays within capacity (keyMapping indices and
gameCount within the registry, every key list stored by an override within the slots of
its action), every game has the same actionCount and the same list of action names as
before; and one pair inside a mapping block whose key is neither a reserved settings key
nor (case-insensitively) the name of an existing action of the active game stays within
capacity and leaves the whole store unchanged. -/
theorem settings_pass_keeps_actions (h : Header) (st : State)
    (pairs : List (List Char × List Char)) (key value : List Char) (g : Nat) (info : GameInfo)
    (hmode : st.s_setDefaultMapping = false) :
    (readPairsInBounds h st pairs = true →
      (∀ (g2 : Nat) (info2 : GameInfo), st.s_games[g2]? = some info2 →
        ∃ info3, (readPairs h st pairs).s_games[g2]? = some info3 ∧
          info3.actionCount = info2.actionCount ∧
          info3.actionMapping.map (fun action => action.action) =
            info2.actionMapping.map (fun action => action.action)) ∧
      (readPairs h st pairs).s_games.length = st.s_games.length) ∧
    (st.s_keyMapping = (g : Int) → st.s_games[g]? = some info →
      (∀ k ∈ reservedKeys, strcasecmp key k ≠ 0) →
      (∀ (a : Nat) (m : ActionMapping), a < info.actionCount →
        info.actionMapping[a]? = some m → strcasecmp m.action key ≠ 0) →
      readCallbackInBounds h st key value = true ∧
      readCallback h st key value = st) := by
  have hsig := (readPairs_signature h pairs st hmode).1
  refine ⟨fun _ => ⟨?_, ?_⟩, ?_⟩
  · intro g2 info2 hg2
    obtain ⟨info3, h3, hs⟩ := map_getElem?_of_map_eq actionSignature _ _ hsig g2 info2 hg2
    simp only [actionSignature, Prod.mk.injEq] at hs
    exact ⟨info3, h3, hs.1, hs.2⟩
  · have := congrArg List.length hsig
    simpa using this
  · intro hopen hinfo hkey hnone
    have hnot : ¬ (st.s_keyMapping ≥ 0 ∧ st.s_setDefaultMapping = true) := by
      rw [hmode]; simp
    have hge : st.s_keyMapping ≥ 0 := by rw [hopen]; exact Int.natCast_nonneg g
    have hidx : st.s_keyMapping.toNat = g := by rw [hopen, Int.toNat_natCast]
    have hf : findAction key (info.actionMapping.take info.actionCount) 0 = -1 := by
      apply findAction_none
      intro a m hm
      by_cases ha : a < info.actionCount
      · rw [List.getElem?_take_of_lt ha] at hm
        exact hnone a m ha hm
      · rw [List.getElem?_take_eq_none (by omega)] at hm
        exact absurd hm (by simp)
    refine ⟨?_, ?_⟩
    · have hlaunch : ¬ strcasecmp key "launchGame".toList = 0 :=
        hkey "launchGame".toList (by decide)
      have hany : ¬ reservedKeys.any (fun k => strcasecmp key k == 0) = true := by
        rw [List.any_eq_true]
        rintro ⟨k, hk, hk0⟩
        exact hkey k hk (by simpa using hk0)
      unfold readCallbackInBounds
      rw [if_neg hlaunch, if_neg hany, if_neg hnot, if_pos hge, hidx, hinfo]
      simp only [overrideActionChecked]
      rw [hf]
      simp
    · rw [readCallback_mapping_branch h st key value hkey, if_neg hnot, if_pos hge, hidx]
      have hfix : modifyAt (overrideAction h key value) st.s_games g = st.s_games := by
        apply modifyAt_fix
        intro x hx
        rw [hinfo] at hx
        cases hx
        simp only [overrideAction]
        rw [hf]
        simp
      rw [hfix]

/-- C11 (amended), concrete instance: in the settings pass after the game-data pass
Jump=Space, with the mapping block of game 0 open, the pair Crouch=C changes nothing, and
the pairs Jump=Enter,Space and Crouch=C leave game 0 with one action. -/
theorem settings_pass_keeps_actions_witness :
    readCallback sampleHeader settingsBlockExample "Crouch".toList "C".toList =
      settingsBlockExample ∧
    readPairsInBounds sampleHeader settingsBlockExample
      [("Jump".toList, "Enter,Space".toList), ("Crouch".toList, "C".toList)] = true ∧
    ∃ info3, (readPairs sampleHeader settingsBlockExample
        [("Jump".toList, "Enter,Space".toList), ("Crouch".toList, "C".toList)]).s_games[0]? =
          some info3 ∧
      info3.actionCount = jumpExample.actionCount ∧
      info3.actionMapping.map (fun action => action.action) =
        jumpExample.actionMapping.map (fun action => action.action) :=
  ⟨((settings_pass_keeps_actions sampleHeader settingsBlockExample [] "Crouch".toList
      "C".toList 0 jumpExample (by decide)).2 (by decide) (by decide) (by decide)
      (fun a m ha hm => by
        have hc : jumpExample.actionCount = 1 := rfl
        have ha0 : a = 0 := by omega
        subst ha0
        have h0 : jumpExample.actionMapping[0]? =
            some { action := "Jump".toList, keys := ["Space".toList, [], [], []],
                   mappingCount := 1 } := by decide
        rw [h0] at hm
        cases hm
        decide)).2,
   by decide,
   ((settings_pass_keeps_actions sampleHeader settingsBlockExample
      [("Jump".toList, "Enter,Space".toList), ("Crouch".toList, "C".toList)] "Crouch".toList
      "C".toList 0 jumpExample (by decide)).1 (by decide)).1 0 jumpExample (by decide)⟩

/-! ## Replaying the mapping section of `write` through `readCallback` -/

end Settings
